import Mathlib

/-!
# Recruitment-Management-System: token service and authorization gate

A shallow embedding of `internals/auth/auth.go` and
`internals/middlewares/authMiddleware.go`, followed by the properties of the
token service (`NewAuth`, `GenerateToken`, `VerifyToken`) and of the gate
(`JWTMiddleware`, `extractTokenFromHeader`). The parts of the services and
handlers that meet the token service are embedded as well: the id conversion of
the job service, `Authenticate` and `ProcessLoginIn`, the role checks of
`JobApplyHandler` and `GetApplicantsHandler`, and the format check of
`UploadResume`.

Conventions of the embedding.

* A Go `string` is a Lean `String` (a sequence of Unicode runes).
* A Go pointer that may be nil is an `Option`; a pair `(value, error)` is a
  pair of `Option`s, so that every combination the Go code can return
  (including a nil value together with a nil error) has a counterpart here.
* The packages `strings`, `strconv`, `time`, `net/http`, `gin` and
  `golang-jwt` are not part of the repository. Their pure helpers are written
  out from their documentation; signing and parsing of tokens are parameters
  (`Jwt`), and so are the statements sent to the database and the password
  check of `bcrypt`.
* A gin handler is a state transformer on the request context paired with a
  world state `σ` standing for everything a wrapped operation may touch.
-/

namespace RMS

/-! ## `strings` -/

/-- The simple lower-case mappings of the Unicode Character Database for the
runes beyond ASCII (versions 14 and 15 agree on them; the `unicode` tables of
Go 1.21 are of version 15), as ranges
`(lo, hi, stride, delta)`: each of the runes `lo`, `lo + stride`, ... up to `hi`
has the lower case `rune + delta`. -/
def lowerRanges : List (Nat × Nat × Nat × Int) :=
  [(0xC0, 0xD6, 1, 32), (0xD8, 0xDE, 1, 32), (0x100, 0x12E, 2, 1), (0x130, 0x130, 1, -199),
   (0x132, 0x136, 2, 1), (0x139, 0x147, 2, 1), (0x14A, 0x176, 2, 1), (0x178, 0x178, 1, -121),
   (0x179, 0x17D, 2, 1), (0x181, 0x181, 1, 210), (0x182, 0x184, 2, 1), (0x186, 0x186, 1, 206),
   (0x187, 0x187, 1, 1), (0x189, 0x18A, 1, 205), (0x18B, 0x18B, 1, 1), (0x18E, 0x18E, 1, 79),
   (0x18F, 0x18F, 1, 202), (0x190, 0x190, 1, 203), (0x191, 0x191, 1, 1), (0x193, 0x193, 1, 205),
   (0x194, 0x194, 1, 207), (0x196, 0x196, 1, 211), (0x197, 0x197, 1, 209), (0x198, 0x198, 1, 1),
   (0x19C, 0x19C, 1, 211), (0x19D, 0x19D, 1, 213), (0x19F, 0x19F, 1, 214), (0x1A0, 0x1A4, 2, 1),
   (0x1A6, 0x1A6, 1, 218), (0x1A7, 0x1A7, 1, 1), (0x1A9, 0x1A9, 1, 218), (0x1AC, 0x1AC, 1, 1),
   (0x1AE, 0x1AE, 1, 218), (0x1AF, 0x1AF, 1, 1), (0x1B1, 0x1B2, 1, 217), (0x1B3, 0x1B5, 2, 1),
   (0x1B7, 0x1B7, 1, 219), (0x1B8, 0x1B8, 1, 1), (0x1BC, 0x1BC, 1, 1), (0x1C4, 0x1C4, 1, 2),
   (0x1C5, 0x1C5, 1, 1), (0x1C7, 0x1C7, 1, 2), (0x1C8, 0x1C8, 1, 1), (0x1CA, 0x1CA, 1, 2),
   (0x1CB, 0x1DB, 2, 1), (0x1DE, 0x1EE, 2, 1), (0x1F1, 0x1F1, 1, 2), (0x1F2, 0x1F4, 2, 1),
   (0x1F6, 0x1F6, 1, -97), (0x1F7, 0x1F7, 1, -56), (0x1F8, 0x21E, 2, 1), (0x220, 0x220, 1, -130),
   (0x222, 0x232, 2, 1), (0x23A, 0x23A, 1, 10795), (0x23B, 0x23B, 1, 1), (0x23D, 0x23D, 1, -163),
   (0x23E, 0x23E, 1, 10792), (0x241, 0x241, 1, 1), (0x243, 0x243, 1, -195),
   (0x244, 0x244, 1, 69), (0x245, 0x245, 1, 71), (0x246, 0x24E, 2, 1), (0x370, 0x372, 2, 1),
   (0x376, 0x376, 1, 1), (0x37F, 0x37F, 1, 116), (0x386, 0x386, 1, 38), (0x388, 0x38A, 1, 37),
   (0x38C, 0x38C, 1, 64), (0x38E, 0x38F, 1, 63), (0x391, 0x3A1, 1, 32), (0x3A3, 0x3AB, 1, 32),
   (0x3CF, 0x3CF, 1, 8), (0x3D8, 0x3EE, 2, 1), (0x3F4, 0x3F4, 1, -60), (0x3F7, 0x3F7, 1, 1),
   (0x3F9, 0x3F9, 1, -7), (0x3FA, 0x3FA, 1, 1), (0x3FD, 0x3FF, 1, -130), (0x400, 0x40F, 1, 80),
   (0x410, 0x42F, 1, 32), (0x460, 0x480, 2, 1), (0x48A, 0x4BE, 2, 1), (0x4C0, 0x4C0, 1, 15),
   (0x4C1, 0x4CD, 2, 1), (0x4D0, 0x52E, 2, 1), (0x531, 0x556, 1, 48), (0x10A0, 0x10C5, 1, 7264),
   (0x10C7, 0x10C7, 1, 7264), (0x10CD, 0x10CD, 1, 7264), (0x13A0, 0x13EF, 1, 38864),
   (0x13F0, 0x13F5, 1, 8), (0x1C90, 0x1CBA, 1, -3008), (0x1CBD, 0x1CBF, 1, -3008),
   (0x1E00, 0x1E94, 2, 1), (0x1E9E, 0x1E9E, 1, -7615), (0x1EA0, 0x1EFE, 2, 1),
   (0x1F08, 0x1F0F, 1, -8), (0x1F18, 0x1F1D, 1, -8), (0x1F28, 0x1F2F, 1, -8),
   (0x1F38, 0x1F3F, 1, -8), (0x1F48, 0x1F4D, 1, -8), (0x1F59, 0x1F5F, 2, -8),
   (0x1F68, 0x1F6F, 1, -8), (0x1F88, 0x1F8F, 1, -8), (0x1F98, 0x1F9F, 1, -8),
   (0x1FA8, 0x1FAF, 1, -8), (0x1FB8, 0x1FB9, 1, -8), (0x1FBA, 0x1FBB, 1, -74),
   (0x1FBC, 0x1FBC, 1, -9), (0x1FC8, 0x1FCB, 1, -86), (0x1FCC, 0x1FCC, 1, -9),
   (0x1FD8, 0x1FD9, 1, -8), (0x1FDA, 0x1FDB, 1, -100), (0x1FE8, 0x1FE9, 1, -8),
   (0x1FEA, 0x1FEB, 1, -112), (0x1FEC, 0x1FEC, 1, -7), (0x1FF8, 0x1FF9, 1, -128),
   (0x1FFA, 0x1FFB, 1, -126), (0x1FFC, 0x1FFC, 1, -9), (0x2126, 0x2126, 1, -7517),
   (0x212A, 0x212A, 1, -8383), (0x212B, 0x212B, 1, -8262), (0x2132, 0x2132, 1, 28),
   (0x2160, 0x216F, 1, 16), (0x2183, 0x2183, 1, 1), (0x24B6, 0x24CF, 1, 26),
   (0x2C00, 0x2C2F, 1, 48), (0x2C60, 0x2C60, 1, 1), (0x2C62, 0x2C62, 1, -10743),
   (0x2C63, 0x2C63, 1, -3814), (0x2C64, 0x2C64, 1, -10727), (0x2C67, 0x2C6B, 2, 1),
   (0x2C6D, 0x2C6D, 1, -10780), (0x2C6E, 0x2C6E, 1, -10749), (0x2C6F, 0x2C6F, 1, -10783),
   (0x2C70, 0x2C70, 1, -10782), (0x2C72, 0x2C72, 1, 1), (0x2C75, 0x2C75, 1, 1),
   (0x2C7E, 0x2C7F, 1, -10815), (0x2C80, 0x2CE2, 2, 1), (0x2CEB, 0x2CED, 2, 1),
   (0x2CF2, 0x2CF2, 1, 1), (0xA640, 0xA66C, 2, 1), (0xA680, 0xA69A, 2, 1),
   (0xA722, 0xA72E, 2, 1), (0xA732, 0xA76E, 2, 1), (0xA779, 0xA77B, 2, 1),
   (0xA77D, 0xA77D, 1, -35332), (0xA77E, 0xA786, 2, 1), (0xA78B, 0xA78B, 1, 1),
   (0xA78D, 0xA78D, 1, -42280), (0xA790, 0xA792, 2, 1), (0xA796, 0xA7A8, 2, 1),
   (0xA7AA, 0xA7AA, 1, -42308), (0xA7AB, 0xA7AB, 1, -42319), (0xA7AC, 0xA7AC, 1, -42315),
   (0xA7AD, 0xA7AD, 1, -42305), (0xA7AE, 0xA7AE, 1, -42308), (0xA7B0, 0xA7B0, 1, -42258),
   (0xA7B1, 0xA7B1, 1, -42282), (0xA7B2, 0xA7B2, 1, -42261), (0xA7B3, 0xA7B3, 1, 928),
   (0xA7B4, 0xA7C2, 2, 1), (0xA7C4, 0xA7C4, 1, -48), (0xA7C5, 0xA7C5, 1, -42307),
   (0xA7C6, 0xA7C6, 1, -35384), (0xA7C7, 0xA7C9, 2, 1), (0xA7D0, 0xA7D0, 1, 1),
   (0xA7D6, 0xA7D8, 2, 1), (0xA7F5, 0xA7F5, 1, 1), (0xFF21, 0xFF3A, 1, 32),
   (0x10400, 0x10427, 1, 40), (0x104B0, 0x104D3, 1, 40), (0x10570, 0x1057A, 1, 39),
   (0x1057C, 0x1058A, 1, 39), (0x1058C, 0x10592, 1, 39), (0x10594, 0x10595, 1, 39),
   (0x10C80, 0x10CB2, 1, 64), (0x118A0, 0x118BF, 1, 32), (0x16E40, 0x16E5F, 1, 32),
   (0x1E900, 0x1E921, 1, 34)]

/-- Rune-level `unicode.ToLower`: ASCII capitals go to their small letters and
the other ASCII runes are fixed; a rune beyond ASCII goes to its simple lower
case in `lowerRanges`, and is fixed when it has none. -/
def toLowerRune (c : Char) : Char :=
  if c.toNat < 128 then c.toLower
  else
    match lowerRanges.find? (fun r =>
      decide (r.1 ≤ c.toNat ∧ c.toNat ≤ r.2.1 ∧ (c.toNat - r.1) % r.2.2.1 = 0)) with
    | some r => Char.ofNat ((c.toNat : Int) + r.2.2.2).toNat
    | none => c

/-- Go `strings.ToLower`: every rune mapped to its lower case. -/
def ToLower (s : String) : String :=
  ⟨s.data.map toLowerRune⟩

/-- Go `strings.Cut` on runes with a one-rune separator: the text before and
after the first occurrence of `sep`, or `none` when `sep` does not occur. -/
def cutChars (sep : Char) : List Char → Option (List Char × List Char)
  | [] => none
  | c :: cs =>
    if c = sep then some ([], cs)
    else (cutChars sep cs).map (fun p => (c :: p.1, p.2))

/-- Go `strings.SplitN` on runes, for a one-rune separator and `n ≥ 0`: no
pieces for `n = 0`; otherwise at most `n` pieces, the last one being the
unsplit remainder. -/
def splitNChars (sep : Char) : Nat → List Char → List (List Char)
  | 0, _ => []
  | 1, cs => [cs]
  | n + 2, cs =>
    match cutChars sep cs with
    | none => [cs]
    | some (pre, rest) => pre :: splitNChars sep (n + 1) rest

/-- Go `strings.SplitN(s, sep, n)` for a one-rune separator. -/
def SplitN (s : String) (sep : Char) (n : Nat) : List String :=
  (splitNChars sep n s.data).map String.mk

/-! ## `net/http` -/

/-- Go `http.Header`: canonical header names with their values. -/
abbrev Header := List (String × List String)

/-- Go `Header.Get`: the first value stored under the key, or the empty string
when there is none. The key `Authorization` is already in canonical form. -/
def Header.Get (h : Header) (key : String) : String :=
  match h.lookup key with
  | some (v :: _) => v
  | _ => ""

/-- Go `http.Request`, reduced to its header. -/
structure Request where
  Header : Header
  deriving DecidableEq, Repr

/-! ## `extractTokenFromHeader` (authMiddleware.go) -/

/-- The source function `extractTokenFromHeader`. -/
def extractTokenFromHeader (r : Request) : String :=
  let authHeader := Header.Get r.Header "Authorization"
  if authHeader = "" then ""
  else
    let parts := SplitN authHeader ' ' 2
    if parts.length ≠ 2 ∨ ToLower (parts.getD 0 "") ≠ "bearer" then ""
    else parts.getD 1 ""

/-- A request whose only header is `Authorization: v`. -/
def requestWithAuthorization (v : String) : Request :=
  { Header := [("Authorization", [v])] }

/-- A request without any header. -/
def requestWithoutHeaders : Request :=
  { Header := [] }

/-! ## Errors, `strconv`, `time` -/

/-- A Go `error` value, identified with its message. -/
structure Error where
  msg : String
  deriving DecidableEq, Repr

/-- Go `errors.New`. -/
def errors.New (text : String) : Error :=
  ⟨text⟩

/-- The decimal digits of `n`, most significant first; `fuel` bounds the number
of digits and `n + 1` is always enough. -/
def natDigits : Nat → Nat → List Char
  | 0, _ => []
  | fuel + 1, n =>
    if n < 10 then [Char.ofNat (48 + n)]
    else natDigits fuel (n / 10) ++ [Char.ofNat (48 + n % 10)]

/-- Go `strconv.Itoa`: the decimal form of an integer, with a leading `-` for a
negative one. -/
def Itoa (i : Int) : String :=
  match i with
  | Int.ofNat n => ⟨natDigits (n + 1) n⟩
  | Int.negSucc n => ⟨'-' :: natDigits (n + 2) (n + 1)⟩

/-- Go `strconv.ErrSyntax`. -/
def ErrSyntax : Error := errors.New "invalid syntax"

/-- Go `strconv.ErrRange`. -/
def ErrRange : Error := errors.New "value out of range"

/-- The number a run of decimal digits stands for. -/
def digitsValue (ds : List Char) : Nat :=
  ds.foldl (fun acc d => acc * 10 + (d.toNat - 48)) 0

/-- Go `strconv.Atoi` for the 64-bit `int`: an optional sign and at least one
decimal digit, nothing else. The error is the cause (`Err`) of the `*NumError`
Go returns; as in Go, a value out of range comes back as the nearest bound. -/
def Atoi (s : String) : Int × Option Error :=
  let (neg, ds) : Bool × List Char :=
    match s.data with
    | '-' :: cs => (true, cs)
    | '+' :: cs => (false, cs)
    | cs => (false, cs)
  if ds = [] ∨ ds.all Char.isDigit = false then (0, some ErrSyntax)
  else
    let un := digitsValue ds
    if neg = false ∧ un ≥ 2 ^ 63 then (2 ^ 63 - 1, some ErrRange)
    else if neg = true ∧ un > 2 ^ 63 then (-2 ^ 63, some ErrRange)
    else (if neg then -(un : Int) else (un : Int), none)

/-- Go `time.Time`, as nanoseconds since the Unix epoch. -/
structure Time where
  unixNano : Int
  deriving DecidableEq, Repr

/-- Go `time.Duration`, in nanoseconds. -/
abbrev Duration := Int

/-- Go `time.Second`. -/
def Second : Duration := 1000000000

/-- Go `time.Minute`. -/
def Minute : Duration := 60 * Second

/-- Go `Time.Add`. -/
def Time.Add (t : Time) (d : Duration) : Time :=
  ⟨t.unixNano + d⟩

/-- Go `Time.Before`. -/
def Time.Before (t u : Time) : Bool :=
  decide (t.unixNano < u.unixNano)

/-! ## `crypto/rsa` and `golang-jwt` -/

/-- Go `rsa.PublicKey`. -/
structure PublicKey where
  N : Nat
  E : Nat
  deriving DecidableEq, Repr

/-- Go `rsa.PrivateKey`: it embeds the public key it belongs to. -/
structure PrivateKey where
  toPublicKey : PublicKey
  D : Nat
  Primes : List Nat
  deriving DecidableEq, Repr

/-- The `jwt.NumericDate`: a time at the precision of `jwt.TimePrecision`, one
second, kept as the number of whole seconds since the Unix epoch. -/
structure NumericDate where
  unix : Int
  deriving DecidableEq, Repr

/-- The instant a `NumericDate` stands for. -/
def NumericDate.Time (d : NumericDate) : Time :=
  ⟨d.unix * Second⟩

/-- The `jwt.NewNumericDate`: the time truncated (rounded down) to the second. -/
def NewNumericDate (t : Time) : NumericDate :=
  ⟨t.unixNano / Second⟩

/-- The `jwt.RegisteredClaims`; the three dates are pointers. -/
structure RegisteredClaims where
  Issuer : String := ""
  Subject : String := ""
  Audience : List String := []
  ExpiresAt : Option NumericDate := none
  NotBefore : Option NumericDate := none
  IssuedAt : Option NumericDate := none
  ID : String := ""
  deriving DecidableEq, Repr

/-- The `jwt.Token`, reduced to the flag `VerifyToken` reads. -/
structure Token where
  Valid : Bool
  deriving DecidableEq, Repr

/-! ## `internals/auth/auth.go` -/

/-- Role constant `Admin`. -/
def Admin : String := "admin"

/-- Role constant `Applicant`. -/
def Applicant : String := "applicant"

/-- The source type `Claims`: the registered claims and the field `Roles`. -/
structure Claims extends RegisteredClaims where
  Roles : String := ""
  deriving DecidableEq, Repr

/-- The part of `golang-jwt` the token service calls.

* `SignedString c key` is `jwt.NewWithClaims(jwt.SigningMethodRS256, c).SignedString(key)`:
  the encoded token and the error.
* `ParseWithClaims tokenString key now` is `jwt.ParseWithClaims(tokenString, &c, k)`
  for a key function `k` that returns `key`, run when the clock reads `now`:
  the claims decoded into `c`, the returned token and the returned error. The
  library hands back a nil token only together with an error, and the caller
  does not look at the token then; so the token is not optional here. -/
structure Jwt where
  SignedString : Claims → PrivateKey → String × Option Error
  ParseWithClaims : String → PublicKey → Time → Claims × Token × Option Error

/-- The source type `Auth`. Both fields are pointers that `NewAuth`, the only
constructor, has checked to be non-nil. -/
structure Auth where
  privateKey : PrivateKey
  publicKey : PublicKey
  deriving DecidableEq, Repr

/-- The source function `NewAuth`; a nil key pointer is `none`. -/
def NewAuth (pubKey : Option PublicKey) (privateKey : Option PrivateKey) :
    Option Auth × Option Error :=
  match pubKey, privateKey with
  | some pub, some priv => (some { privateKey := priv, publicKey := pub }, none)
  | _, _ => (none, some (errors.New "private key, public key cannot be nil"))

/-- The claims `GenerateToken` fills in. The two readings of the clock are the
two calls of `time.Now()`, in the order the struct literal evaluates them: `now₁`
for `ExpiresAt`, then `now₂` for `IssuedAt`. -/
def issuedClaims (now₁ now₂ : Time) (id : Int) (role : String) : Claims :=
  { Issuer := "api project"
    Subject := Itoa id
    ExpiresAt := some (NewNumericDate (now₁.Add (50 * Minute)))
    IssuedAt := some (NewNumericDate now₂)
    Roles := role }

/-- The source method `Auth.GenerateToken`. -/
def GenerateToken (jwt : Jwt) (a : Auth) (now₁ now₂ : Time) (id : Int) (role : String) :
    String × Option Error :=
  let c := issuedClaims now₁ now₂ id role
  let (encodedToken, err) := jwt.SignedString c a.privateKey
  if err ≠ none then ("", err)
  else (encodedToken, none)

/-- The source method `Auth.VerifyToken`, run when the clock reads `now`. The
result is the pair `(*Claims, error)` as returned. -/
def VerifyToken (jwt : Jwt) (a : Auth) (now : Time) (tokenString requiredRole : String) :
    Option Claims × Option Error :=
  let (c, token, err) := jwt.ParseWithClaims tokenString a.publicKey now
  if err ≠ none then (none, err)
  else if !token.Valid then (none, err)
  else if c.Roles = Applicant then
    if c.Roles ≠ requiredRole then
      (none, some (errors.New "you are not authorized to perform this"))
    else (some c, none)
  else (some c, none)

/-! ## `gin` -/

/-- A value stored in the context's key map (Go `any`): a `*auth.Claims`, nil
or not, or some other value. -/
inductive Value where
  | claims (p : Option Claims)
  | other (s : String)
  deriving DecidableEq, Repr

/-- The `gin.H` bodies the sources send: a JSON object of string fields. -/
abbrev H := List (String × String)

/-- The `gin.Context`: the request, the key map of `Set` and `Get`, the
responses written so far (status and JSON body, oldest first), whether the
handler chain has been aborted, the parameters of the matched route and the
headers set on the response. -/
structure Context where
  Request : Request
  Keys : List (String × Value) := []
  Writer : List (Nat × H) := []
  aborted : Bool := false
  Params : List (String × String) := []
  ResponseHeader : List (String × String) := []
  deriving DecidableEq, Repr

/-- The `gin.Context.Set`: the key map with `key` bound to `value`. -/
def Context.Set (c : Context) (key : String) (value : Value) : Context :=
  { c with Keys := (key, value) :: c.Keys.filter (fun kv => kv.1 != key) }

/-- The `gin.Context.Get`: the value bound to `key`; `none` is `exists = false`. -/
def Context.Get (c : Context) (key : String) : Option Value :=
  c.Keys.lookup key

/-- The `gin.Context.JSON`: write the status and the body. -/
def Context.JSON (c : Context) (code : Nat) (obj : H) : Context :=
  { c with Writer := c.Writer ++ [(code, obj)] }

/-- The `gin.Context.Abort`. -/
def Context.Abort (c : Context) : Context :=
  { c with aborted := true }

/-- The `gin.Context.AbortWithStatusJSON`: `Abort` followed by `JSON`. -/
def Context.AbortWithStatusJSON (c : Context) (code : Nat) (obj : H) : Context :=
  c.Abort.JSON code obj

/-- The `gin.Context.Param`: the value of a route parameter, or the empty
string when the route has none of that name. -/
def Context.Param (c : Context) (key : String) : String :=
  (c.Params.lookup key).getD ""

/-- The `gin.Context.Header`: set a response header, or delete it when the
value is empty. -/
def Context.Header (c : Context) (key value : String) : Context :=
  if value = "" then
    { c with ResponseHeader := c.ResponseHeader.filter (fun kv => kv.1 != key) }
  else
    { c with
      ResponseHeader := (key, value) :: c.ResponseHeader.filter (fun kv => kv.1 != key) }

/-- What the `Recovery` middleware of `gin.Default()` makes of a panic in a
handler: the chain is aborted with status 500 and no body. -/
def Context.recovered (c : Context) : Context :=
  { c with aborted := true, Writer := c.Writer ++ [(500, [])] }

/-- Go `http.StatusUnauthorized`. -/
def StatusUnauthorized : Nat := 401

/-- The `gin.HandlerFunc`: what a handler does to the context and to the world
`σ` outside it (the database, or the counter of a test probe). -/
abbrev HandlerFunc (σ : Type) := Context → σ → Context × σ

/-! ## `internals/middlewares/authMiddleware.go` -/

/-- The source type `Mid`; `NewMid` has checked the pointer to be non-nil. -/
structure Mid where
  a : Auth
  deriving DecidableEq, Repr

/-- The source function `NewMid`. -/
def NewMid (a : Option Auth) : Option Mid × Option Error :=
  match a with
  | none => (none, some (errors.New "auth struct cannot be nil"))
  | some a => (some { a := a }, none)

/-- The source method `Mid.JWTMiddleware`: the handler it returns, run when the
clock reads `now`. -/
def JWTMiddleware {σ : Type} (jwt : Jwt) (m : Mid) (handler : HandlerFunc σ)
    (requiredRole : String) (now : Time) : HandlerFunc σ :=
  fun c w =>
    let tokenString := extractTokenFromHeader c.Request
    if tokenString = "" then
      (c.AbortWithStatusJSON StatusUnauthorized [("error", "Unauthorized")], w)
    else
      let (claims, err) := VerifyToken jwt m.a now tokenString requiredRole
      if err ≠ none then
        (c.AbortWithStatusJSON StatusUnauthorized [("error", "Unauthorized")], w)
      else
        handler (c.Set "claims" (Value.claims claims)) w

/-- A call-count probe: a handler that leaves the context alone and counts its
own invocations in the world. -/
def callProbe : HandlerFunc Nat :=
  fun c n => (c, n + 1)

/-- The rejection both failure branches of `JWTMiddleware` send. -/
def unauthorized (c : Context) : Context :=
  c.AbortWithStatusJSON StatusUnauthorized [("error", "Unauthorized")]

/-! ## `internals/handlers`: how a wrapped operation reads the claims -/

/-- The opening lines of the handlers behind the gate (`CreateJob`, lines 29-38;
`JobApplyHandler` and `UploadResume` start the same way): fetch the value under
the key `claims` and assert it to be a `*auth.Claims`. The result is that
pointer, or the context after the answer 401 `StatusUnauthorized` the handler
gives when the key is missing or holds a value of another type. -/
def claimsFromContext (c : Context) : Except Context (Option Claims) :=
  match c.Get "claims" with
  | none => .error (c.JSON StatusUnauthorized [("error", "StatusUnauthorized")])
  | some (Value.claims claims) => .ok claims
  | some _ => .error (c.JSON StatusUnauthorized [("error", "StatusUnauthorized")])

/-! ## Predicates used in the statements -/

/-- The contract of `golang-jwt` the round trip rests on: a token signed with a
private key parses, under the public key of that private key, as valid and with
the claims that were signed, as long as the clock is before `ExpiresAt` and not
before `NotBefore` (each only when set). -/
def Jwt.RoundTrip (jwt : Jwt) : Prop :=
  ∀ (c : Claims) (key : PrivateKey) (tokenString : String) (now : Time),
    jwt.SignedString c key = (tokenString, none) →
    (∀ exp, c.ExpiresAt = some exp → now.Before exp.Time = true) →
    (∀ nbf, c.NotBefore = some nbf → now.Before nbf.Time = false) →
    jwt.ParseWithClaims tokenString key.toPublicKey now = (c, ⟨true⟩, none)

/-- The gate turns the request away: no token is extracted, or `VerifyToken`
returns an error. -/
def gateRejects (jwt : Jwt) (m : Mid) (requiredRole : String) (now : Time) (c : Context) :
    Prop :=
  extractTokenFromHeader c.Request = "" ∨
    (VerifyToken jwt m.a now (extractTokenFromHeader c.Request) requiredRole).2 ≠ none

instance (jwt : Jwt) (m : Mid) (requiredRole : String) (now : Time) (c : Context) :
    Decidable (gateRejects jwt m requiredRole now c) := by
  unfold gateRejects
  infer_instance

/-- The responses written between two states of a context. -/
def writtenSince (before after : Context) : List (Nat × H) :=
  after.Writer.drop before.Writer.length

/-! ## A small token library, for concrete runs

The library `demoJwt` writes a token as the issuer, the subject, the expiry,
the issue date, the role and the two numbers of the public key, separated by
dots; it refuses to sign claims it could not read back. It stands in for
`golang-jwt` wherever a statement is evaluated on a concrete input. -/

/-- The token text of `demoJwt` for claims with dates `exp` and `iat`. -/
def demoEncode (c : Claims) (exp iat : NumericDate) (k : PublicKey) : String :=
  c.Issuer ++ "." ++ c.Subject ++ "." ++ Itoa exp.unix ++ "." ++ Itoa iat.unix ++ "."
    ++ c.Roles ++ "." ++ Itoa k.N ++ "." ++ Itoa k.E

/-- Reading a token of `demoJwt`: the claims and the key it names. -/
def demoDecode (tokenString : String) : Option (Claims × PublicKey) :=
  match SplitN tokenString '.' 7 with
  | [iss, sub, exp, iat, roles, n, e] =>
    match Atoi exp, Atoi iat, Atoi n, Atoi e with
    | (x, none), (i, none), (kn, none), (ke, none) =>
      some ({ Issuer := iss, Subject := sub, ExpiresAt := some ⟨x⟩, IssuedAt := some ⟨i⟩,
              Roles := roles }, ⟨kn.toNat, ke.toNat⟩)
    | _, _, _, _ => none
  | _ => none

/-- Signing in `demoJwt`: the token text, provided it reads back as the same
claims under the same key. -/
def demoSignedString (c : Claims) (key : PrivateKey) : String × Option Error :=
  match c.ExpiresAt, c.IssuedAt with
  | some exp, some iat =>
    let tokenString := demoEncode c exp iat key.toPublicKey
    if demoDecode tokenString = some (c, key.toPublicKey) then (tokenString, none)
    else ("", some (errors.New "claims cannot be encoded"))
  | _, _ => ("", some (errors.New "claims cannot be encoded"))

/-- Parsing in `demoJwt`: malformed text, a token naming another key and an
expired token are errors; anything else is valid. -/
def demoParseWithClaims (tokenString : String) (key : PublicKey) (now : Time) :
    Claims × Token × Option Error :=
  match demoDecode tokenString with
  | none => ({}, ⟨false⟩, some (errors.New "token is malformed"))
  | some (c, k) =>
    if k ≠ key then (c, ⟨false⟩, some (errors.New "token signature is invalid"))
    else
      match c.ExpiresAt with
      | none => (c, ⟨true⟩, none)
      | some exp =>
        if now.Before exp.Time then (c, ⟨true⟩, none)
        else (c, ⟨false⟩, some (errors.New "token is expired"))

/-- The library `demoJwt`. -/
def demoJwt : Jwt :=
  { SignedString := demoSignedString, ParseWithClaims := demoParseWithClaims }

/-- A key pair for concrete runs. -/
def demoKey : PrivateKey :=
  { toPublicKey := { N := 3233, E := 17 }, D := 413, Primes := [61, 53] }

/-- The token service over `demoKey`. -/
def demoAuth : Auth :=
  { privateKey := demoKey, publicKey := demoKey.toPublicKey }

/-- The gate over `demoAuth`. -/
def demoMid : Mid :=
  { a := demoAuth }

/-- The clock reading at which the concrete tokens are issued: 1000 s. -/
def demoIssueTime : Time :=
  ⟨1000 * Second⟩

/-- A clock reading ten minutes after `demoIssueTime`. -/
def demoLater : Time :=
  demoIssueTime.Add (10 * Minute)

/-- The token `demoAuth` issues for subject 42 with role `applicant`. -/
def demoApplicantToken : String :=
  (GenerateToken demoJwt demoAuth demoIssueTime demoIssueTime 42 Applicant).1

/-- The token `demoAuth` issues for subject 7 with role `admin`. -/
def demoAdminToken : String :=
  (GenerateToken demoJwt demoAuth demoIssueTime demoIssueTime 7 Admin).1

/-- A fresh context for a request that carries `Authorization: Bearer <token>`. -/
def bearerContext (tokenString : String) : Context :=
  { Request := requestWithAuthorization ("Bearer " ++ tokenString) }

/-- A fresh context for a request without headers. -/
def noHeaderContext : Context :=
  { Request := requestWithoutHeaders }

/-! ## Further predicates and concrete inputs for the token service -/

/-- The contract of `golang-jwt` on expiry: whenever the claims decoded from the
token carry an `ExpiresAt` earlier than the clock reading, the parser returns an
error, under every key (so whether or not the signature verifies). -/
def Jwt.ChecksExpiry (jwt : Jwt) : Prop :=
  ∀ (tokenString : String) (key : PublicKey) (now : Time) (exp : NumericDate),
    (jwt.ParseWithClaims tokenString key now).1.ExpiresAt = some exp →
    exp.Time.Before now = true →
    (jwt.ParseWithClaims tokenString key now).2.2 ≠ none

/-- A clock reading one hour after `demoIssueTime`, past the expiry of the
concrete tokens. -/
def demoExpired : Time :=
  demoIssueTime.Add (60 * Minute)

/-- Go `strings.LastIndex` on runes, for a one-rune separator: the position of
the last occurrence, or `-1` when there is none. -/
def lastIndexChars (sep : Char) : List Char → Int
  | [] => -1
  | c :: cs =>
    if 0 ≤ lastIndexChars sep cs then lastIndexChars sep cs + 1
    else if c = sep then 0
    else -1

/-- Go `strings.LastIndex(s, sep)` for a one-rune separator. Go counts bytes;
the separator used is the ASCII `.`, which sits between whole runes, so the
position counted in runes describes the same cut. -/
def LastIndex (s : String) (sep : Char) : Int :=
  lastIndexChars sep s.data

/-- The Go slice expression `s[i:]`; `none` is the run-time panic for an index
out of range. -/
def sliceFrom (s : String) (i : Int) : Option String :=
  if 0 ≤ i ∧ i ≤ s.data.length then some ⟨s.data.drop i.toNat⟩ else none

/-- Go `http.StatusBadRequest`. -/
def StatusBadRequest : Nat := 400

/-- Lines 56-57 of `UploadResume`: the lower-cased extension of the file name;
`none` if the slice expression panics. -/
def resumeExt (fileName : String) : Option String :=
  (sliceFrom fileName (LastIndex fileName '.' + 1)).map ToLower

/-- Lines 56-61 of `UploadResume`: the format check. The result is `none` if
the slice expression panics, the context after the answer 400 when the format
is refused, and the extension when the handler goes on. -/
def resumeFormatCheck (c : Context) (fileName : String) : Option (Except Context String) :=
  match resumeExt fileName with
  | none => none
  | some ext =>
    if ext ≠ "pdf" ∧ ext ≠ "docx" then
      some (.error (c.JSON StatusBadRequest
        [("error", "unsupported file format. Only PDF and DOCX files are allowed.")]))
    else some (.ok ext)

/-- The text after the last `.` of a file name, the whole name when it has no
`.`: written after the wording of the property, to compare `resumeExt` with. -/
def afterLastDot (fileName : String) : String :=
  ⟨(fileName.data.reverse.takeWhile (fun c => c != '.')).reverse⟩

/-! ## `internals/models` and `internals/services/jobService.go` -/

/-- Go `fmt.Errorf` for the formats `"<text>: %v"` and `"<text>: %w"` the
services use: the text, a colon and the message of the cause. -/
def Errorf (text : String) (err : Error) : Error :=
  ⟨text ++ ": " ++ err.msg⟩

/-- The source type `models.Job`. -/
structure Job where
  ID : Int := 0
  Title : String := ""
  Description : String := ""
  PostedOn : Time := ⟨0⟩
  TotalApplications : Int := 0
  CompanyName : String := ""
  PostedBy : Int := 0
  deriving DecidableEq, Repr

/-- The source type `models.NewJob`. -/
structure NewJob where
  Title : String := ""
  Description : String := ""
  PostedOn : Time := ⟨0⟩
  TotalApplications : Int := 0
  CompanyName : String := ""
  PostedBy : Int := 0
  deriving DecidableEq, Repr

/-- The source type `JobService`: its database handle, given by what the
statements of the modelled methods do to a database in state `σ`.

* `countApplications userId jobID` is the `SELECT COUNT(*) FROM applications`
  query of `HasApplied` with its `Scan`: the count and the error.
* `insertApplication userId jobID` is the `INSERT INTO applications` of
  `ApplyForJob`: the new state and the error.
* `bumpTotalApplications jobID` is the `UPDATE jobs` of `ApplyForJob`.
* `insertJob newJob userId` is the `INSERT INTO jobs` of `CreateJob` followed by
  `LastInsertId`: the new state, the error of `Exec`, the id and the error of
  `LastInsertId`. -/
structure JobService (σ : Type) where
  countApplications : Int → Int → σ → Int × Option Error
  insertApplication : Int → Int → σ → σ × Option Error
  bumpTotalApplications : Int → σ → σ × Option Error
  insertJob : NewJob → Int → σ → σ × Option Error × Int × Option Error

/-- The source method `JobService.CreateJob` from the insertion on, for a
converted `userId`; `now₁` and `now₂` are its two readings of the clock. -/
def createJobInsert {σ : Type} (js : JobService σ) (newJob : NewJob) (userId : Int)
    (now₁ now₂ : Time) (w : σ) : σ × Option Job × Option Error :=
  let job : Job :=
    { Title := newJob.Title, Description := newJob.Description, PostedOn := now₁,
      CompanyName := newJob.CompanyName, PostedBy := userId }
  match js.insertJob { newJob with PostedOn := now₂ } userId w with
  | (w₁, some err, _, _) => (w₁, none, some err)
  | (w₁, none, _, some err) => (w₁, none, some err)
  | (w₁, none, id, none) => (w₁, some { job with ID := id }, none)

/-- The source method `JobService.CreateJob`. -/
def CreateJob {σ : Type} (js : JobService σ) (newJob : NewJob) (postedByID : String)
    (now₁ now₂ : Time) (w : σ) : σ × Option Job × Option Error :=
  match Atoi postedByID with
  | (_, some err) => (w, none, some err)
  | (userId, none) => createJobInsert js newJob userId now₁ now₂ w

/-- The source method `JobService.HasApplied` from the query on, for a converted
`userId`. -/
def hasAppliedQuery {σ : Type} (js : JobService σ) (userId jobID : Int) (w : σ) :
    Bool × Option Error :=
  match js.countApplications userId jobID w with
  | (_, some err) => (false, some (Errorf "failed to check application status" err))
  | (count, none) => (decide (count > 0), none)

/-- The source method `JobService.HasApplied`. -/
def HasApplied {σ : Type} (js : JobService σ) (userID : String) (jobID : Int) (w : σ) :
    Bool × Option Error :=
  match Atoi userID with
  | (_, some err) => (false, some (Errorf "failed to convert user ID to int" err))
  | (userId, none) => hasAppliedQuery js userId jobID w

/-- The source method `JobService.ApplyForJob` from the insertion on, for a
converted `userId`. -/
def applyInsert {σ : Type} (js : JobService σ) (userId jobID : Int) (w : σ) :
    σ × Option Error :=
  match js.insertApplication userId jobID w with
  | (w₁, some err) => (w₁, some (Errorf "failed to apply for job" err))
  | (w₁, none) =>
    match js.bumpTotalApplications jobID w₁ with
    | (w₂, some err) => (w₂, some (Errorf "failed to update total_applications count" err))
    | (w₂, none) => (w₂, none)

/-- The source method `JobService.ApplyForJob`. -/
def ApplyForJob {σ : Type} (js : JobService σ) (userID : String) (jobID : Int) (w : σ) :
    σ × Option Error :=
  match HasApplied js userID jobID w with
  | (_, some err) => (w, some (Errorf "failed to check application status" err))
  | (hasApplied, none) =>
    if hasApplied then (w, some (errors.New "user has already applied for this job"))
    else
      match Atoi userID with
      | (_, some err) => (w, some (Errorf "failed to convert user ID to int" err))
      | (userId, none) => applyInsert js userId jobID w

/-- A job service over a list of applications `(user, job)`, for concrete
runs: counting and inserting work on the list, the other statements succeed
without effect. -/
def demoJobService : JobService (List (Int × Int)) :=
  { countApplications := fun userId jobID w => ((w.count (userId, jobID) : Nat), none)
    insertApplication := fun userId jobID w => (w ++ [(userId, jobID)], none)
    bumpTotalApplications := fun _ w => (w, none)
    insertJob := fun _ _ w => (w, none, 1, none) }

/-! ## `internals/services/userService.go` -/

/-- The source type `models.User`, without the embedded profile. -/
structure User where
  ID : Int := 0
  Name : String := ""
  Email : String := ""
  Address : String := ""
  UserType : String := ""
  PasswordHash : String := ""
  ProfileHead : String := ""
  deriving DecidableEq, Repr

/-- The source type `UserService`: its database handle, given by the answers
of the database to the modelled methods.

* `queryUser email` is the `SELECT id, PasswordHash, UserType FROM users WHERE
  email = ?` of `Authenticate` with its `Scan`: the three columns, or the error.
* `GetApplicants` is the outcome of the method of that name, which only reads
  the database: the list of applicants rendered as JSON, and the error. -/
structure UserService where
  queryUser : String → Except Error (Int × String × String)
  GetApplicants : String × Option Error

/-- Go `bcrypt.CompareHashAndPassword(hash, password)`: the error, nil on a
match. -/
abbrev CompareHashAndPassword := String → String → Option Error

/-- The source method `UserService.Authenticate`. -/
def Authenticate (us : UserService) (bcrypt : CompareHashAndPassword)
    (email userType password : String) : Option User × Option Error :=
  let email := ToLower email
  let user : User := { Email := email, UserType := userType }
  match us.queryUser email with
  | .error err => (none, some (Errorf "authenticate" err))
  | .ok (id, passwordHash, storedType) =>
    let user := { user with ID := id, PasswordHash := passwordHash, UserType := storedType }
    match bcrypt user.PasswordHash password with
    | some err => (none, some (Errorf "authenticate" err))
    | none => (some user, none)

/-! ## `internals/handlers` -/

/-- Go `http.StatusOK`. -/
def StatusOK : Nat := 200

/-- Go `http.StatusCreated`. -/
def StatusCreated : Nat := 201

/-- Go `http.StatusAccepted`. -/
def StatusAccepted : Nat := 202

/-- Go `http.StatusInternalServerError`. -/
def StatusInternalServerError : Nat := 500

/-- The source method `JobHandler.JobApplyHandler`. Dereferencing a nil
`*Claims` panics. -/
def JobApplyHandler {σ : Type} (js : JobService σ) : HandlerFunc σ :=
  fun c w =>
    match claimsFromContext c with
    | .error c' => (c', w)
    | .ok none => (c.recovered, w)
    | .ok (some claims) =>
      if claims.Roles ≠ "Applicant" then
        (c.JSON StatusUnauthorized
          [("error", "Only Applicant users are allowed to apply for jobs")], w)
      else
        match Atoi (c.Param "job_id") with
        | (_, some _) => (c.JSON StatusBadRequest [("error", "Invalid job ID")], w)
        | (jobID, none) =>
          match ApplyForJob js claims.Subject jobID w with
          | (w₁, some _) =>
            (c.JSON StatusInternalServerError [("error", "Failed to apply for job")], w₁)
          | (w₁, none) => (c.JSON StatusAccepted [("message", "applied succesfully")], w₁)

/-- The source method `Users.GetApplicantsHandler`. Dereferencing a nil
`*Claims` panics. -/
def GetApplicantsHandler {σ : Type} (us : UserService) : HandlerFunc σ :=
  fun c w =>
    match c.Get "claims" with
    | some (Value.claims none) => (c.recovered, w)
    | some (Value.claims (some authenticatedUser)) =>
      if authenticatedUser.Roles ≠ "Admin" then
        (c.JSON StatusUnauthorized
          [("error", "Only Admin users are allowed to access this API")], w)
      else
        match us.GetApplicants with
        | (_, some err) => (c.JSON StatusInternalServerError [("error", err.msg)], w)
        | (applicants, none) => (c.JSON StatusOK [("applicants", applicants)], w)
    | _ => (c.JSON StatusUnauthorized [("error", "Unauthorized")], w)

/-- The body `ProcessLoginIn` binds from the request. -/
structure LoginBody where
  Email : String
  Password : String
  UserType : String
  deriving DecidableEq, Repr

/-- The source method `Users.ProcessLoginIn`; `body` is the outcome of
`c.BindJSON(&authUser)`, which on an error has already aborted the chain with
status 400. -/
def ProcessLoginIn (jwt : Jwt) (a : Auth) (us : UserService) (bcrypt : CompareHashAndPassword)
    (now₁ now₂ : Time) (body : Except Error LoginBody) (c : Context) : Context :=
  let c := c.Header "Content-Type" "application/json"
  match body with
  | .error _ => c.Abort.JSON StatusBadRequest [("error", "Invalid request body")]
  | .ok authUser =>
    match Authenticate us bcrypt authUser.Email authUser.UserType authUser.Password with
    | (_, some _) => c.JSON StatusInternalServerError [("error", "Authentication error")]
    | (none, none) => c.recovered
    | (some user, none) =>
      match GenerateToken jwt a now₁ now₂ user.ID user.UserType with
      | (_, some _) => c.JSON StatusInternalServerError [("error", "Token Generate error")]
      | (tkn, none) => (c.Header "Authorization" tkn).JSON StatusCreated [("message", tkn)]

/-- A request for `/api/jobs/apply/1` that carries the token as bearer. -/
def applyContext (tokenString : String) : Context :=
  { Request := requestWithAuthorization ("Bearer " ++ tokenString),
    Params := [("job_id", "1")] }

/-- A user service for concrete runs: one stored user, `ann@example.com` with
id 42, password hash `h42` and type `applicant`, and one applicant to list. -/
def demoUserService : UserService :=
  { queryUser := fun email =>
      if email = "ann@example.com" then .ok (42, "h42", "applicant")
      else .error (errors.New "sql: no rows in result set")
    GetApplicants := ("[\x7b\"ID\":42\x7d]", none) }

/-- A password check for concrete runs: the hash `h42` matches the password
`secret`, nothing else matches. -/
def demoCompare : CompareHashAndPassword :=
  fun hash password =>
    if hash = "h42" ∧ password = "secret" then none
    else some (errors.New "hashedPassword is not the hash of the given password")

/-! ## The validity flag, and the verdict of `Verify` in the specification -/

/-- The contract of `golang-jwt` on the flag `Valid`: the parser sets it on
every path on which it returns a nil error (the assignment stands right before
its `return token, nil`). -/
def Jwt.ValidWhenNoError (jwt : Jwt) : Prop :=
  ∀ (tokenString : String) (key : PublicKey) (now : Time),
    (jwt.ParseWithClaims tokenString key now).2.2 = none →
    (jwt.ParseWithClaims tokenString key now).2.1.Valid = true

/-- The verdict `Verify` draws from the parser's outcome, written after the
wording of the specification (4.1), to compare `VerifyToken` with: the parser's
error when it reports the token invalid; the authorization error when the
token's role is `applicant` and differs from `requiredRole`; the claims
otherwise. -/
def verifyVerdict (outcome : Claims × Token × Option Error) (requiredRole : String) :
    Option Claims × Option Error :=
  match outcome.2.2 with
  | some err => (none, some err)
  | none =>
    if outcome.1.Roles = Applicant ∧ outcome.1.Roles ≠ requiredRole then
      (none, some (errors.New "you are not authorized to perform this"))
    else (some outcome.1, none)

/-- A clock reading of one and a half seconds. -/
def demoHalfSecond : Time :=
  ⟨1500000000⟩

/-! ## Evaluation on small inputs -/

example : Itoa 42 = "42" := by decide
example : Itoa (-7) = "-7" := by decide
example : Itoa 0 = "0" := by decide
example : Atoi "42" = (42, none) := by decide
example : Atoi "-7" = (-7, none) := by decide
example : Atoi "4a" = (0, some ErrSyntax) := by decide
example : demoApplicantToken = "api project.42.4000.1000.applicant.3233.17" := by decide
example : demoAdminToken = "api project.7.4000.1000.admin.3233.17" := by decide


example : extractTokenFromHeader (requestWithAuthorization "Bearer abc") = "abc" := by decide
example : extractTokenFromHeader (requestWithAuthorization "bearer abc") = "abc" := by decide
example : extractTokenFromHeader (requestWithAuthorization "Token abc") = "" := by decide
example : extractTokenFromHeader (requestWithAuthorization "Bearer") = "" := by decide
example : extractTokenFromHeader (requestWithAuthorization "Bearer a b") = "a b" := by decide
example : extractTokenFromHeader requestWithoutHeaders = "" := by decide

example : resumeExt "cv.PDF" = some "pdf" := by decide
example : resumeExt "a.b.Docx" = some "docx" := by decide
example : resumeExt "PDF" = some "pdf" := by decide
example : resumeExt "cv." = some "" := by decide
example : afterLastDot "a.b.Docx" = "Docx" := by decide

example : ToLower "BeArEr" = "bearer" := by decide
example : toLowerRune (Char.ofNat 0xC0) = Char.ofNat 0xE0 := by decide
example : toLowerRune (Char.ofNat 0x130) = 'i' := by decide
example : toLowerRune (Char.ofNat 0x212A) = 'k' := by decide
example : toLowerRune (Char.ofNat 0x1E921) = Char.ofNat 0x1E943 := by decide
example : toLowerRune (Char.ofNat 0xE0) = Char.ofNat 0xE0 := by decide

/-! ## Lemmas on splitting and lower-casing -/

theorem cutChars_eq_none {sep : Char} {cs : List Char} (h : sep ∉ cs) :
    cutChars sep cs = none := by
  induction cs with
  | nil => rfl
  | cons c cs ih =>
    have hc : c ≠ sep := fun e => h (by simp [e])
    have hcs : sep ∉ cs := fun e => h (by simp [e])
    simp [cutChars, hc, ih hcs]

theorem cutChars_append {sep : Char} {pre : List Char} (rest : List Char) (h : sep ∉ pre) :
    cutChars sep (pre ++ sep :: rest) = some (pre, rest) := by
  induction pre with
  | nil => simp [cutChars]
  | cons c cs ih =>
    have hc : c ≠ sep := fun e => h (by simp [e])
    have hcs : sep ∉ cs := fun e => h (by simp [e])
    simp [cutChars, hc, ih hcs]

theorem cutChars_some {sep : Char} {cs pre rest : List Char}
    (h : cutChars sep cs = some (pre, rest)) :
    pre = cs.takeWhile (fun c => c != sep) ∧ cs = pre ++ sep :: rest := by
  induction cs generalizing pre with
  | nil => simp [cutChars] at h
  | cons c cs ih =>
    by_cases hc : c = sep
    · simp [cutChars, hc] at h
      obtain ⟨h1, h2⟩ := h
      subst h1 h2
      simp [hc]
    · simp only [cutChars, hc, if_false, Option.map_eq_some'] at h
      obtain ⟨⟨p, q⟩, hpq, hp⟩ := h
      simp only [Prod.mk.injEq] at hp
      obtain ⟨h1, h2⟩ := hp
      subst h1 h2
      obtain ⟨e1, e2⟩ := ih hpq
      constructor
      · have hne : (c != sep) = true := by simp [hc]
        rw [List.takeWhile_cons, hne, ← e1]
        rfl
      · simp [← e2]

theorem mk_data (s : String) : String.mk s.data = s := rfl

/-- What `extractTokenFromHeader` computes, in terms of the first space of the
header value. -/
theorem extractTokenFromHeader_eq (r : Request) :
    extractTokenFromHeader r =
      match cutChars ' ' (Header.Get r.Header "Authorization").data with
      | none => ""
      | some (pre, rest) => if ToLower ⟨pre⟩ = "bearer" then ⟨rest⟩ else "" := by
  unfold extractTokenFromHeader
  generalize Header.Get r.Header "Authorization" = h
  by_cases hempty : h = ""
  · subst hempty
    simp [cutChars]
  · simp only [hempty, if_false, SplitN]
    cases hcut : cutChars ' ' h.data with
    | none => simp [splitNChars, hcut]
    | some p =>
      obtain ⟨pre, rest⟩ := p
      by_cases hb : ToLower ⟨pre⟩ = "bearer"
      · simp [splitNChars, hcut, hb]
      · simp [splitNChars, hcut, hb]

theorem no_space_of_toLower_bearer {s : String} (h : ToLower s = "bearer") :
    ' ' ∉ s.data := by
  intro hmem
  have h1 : toLowerRune ' ' ∈ (ToLower s).data := by
    simp only [ToLower]
    exact List.mem_map_of_mem toLowerRune hmem
  rw [h] at h1
  revert h1
  decide

/-! ## The bearer-token extraction -/

/-- C7: `extractTokenFromHeader` returns the empty string whenever the
`Authorization` value is empty, contains no space, or has before its first
space a scheme that does not lower-case to `bearer`. -/
theorem extractTokenFromHeader_rejects (r : Request)
    (h : Header.Get r.Header "Authorization" = "" ∨
      ' ' ∉ (Header.Get r.Header "Authorization").data ∨
      ToLower ⟨(Header.Get r.Header "Authorization").data.takeWhile (fun c => c != ' ')⟩
        ≠ "bearer") :
    extractTokenFromHeader r = "" := by
  rw [extractTokenFromHeader_eq]
  cases hcut : cutChars ' ' (Header.Get r.Header "Authorization").data with
  | none => rfl
  | some p =>
    obtain ⟨pre, rest⟩ := p
    obtain ⟨hpre, hall⟩ := cutChars_some hcut
    rcases h with h | h | h
    · rw [h] at hall
      simp at hall
    · exact absurd (by rw [hall]; simp) h
    · rw [← hpre] at h
      simp [h]

/-- C7 at the headers the specification lists: no header at all, an empty
value, `Bearer` without a token, and the scheme `Token`. -/
theorem extractTokenFromHeader_rejects_witness :
    extractTokenFromHeader requestWithoutHeaders = "" ∧
    extractTokenFromHeader (requestWithAuthorization "") = "" ∧
    extractTokenFromHeader (requestWithAuthorization "Bearer") = "" ∧
    extractTokenFromHeader (requestWithAuthorization "Token abc") = "" :=
  ⟨extractTokenFromHeader_rejects requestWithoutHeaders (Or.inl (by decide)),
   extractTokenFromHeader_rejects (requestWithAuthorization "") (Or.inl (by decide)),
   extractTokenFromHeader_rejects (requestWithAuthorization "Bearer")
     (Or.inr (Or.inl (by decide))),
   extractTokenFromHeader_rejects (requestWithAuthorization "Token abc")
     (Or.inr (Or.inr (by decide)))⟩

/-- C8: when the scheme lower-cases to `bearer`, `extractTokenFromHeader` on the
header value `scheme ++ " " ++ t` returns exactly `t`. -/
theorem extractTokenFromHeader_bearer (r : Request) (scheme t : String)
    (hs : ToLower scheme = "bearer")
    (hh : Header.Get r.Header "Authorization" = scheme ++ " " ++ t) :
    extractTokenFromHeader r = t := by
  rw [extractTokenFromHeader_eq, hh]
  have hdata : (scheme ++ " " ++ t).data = scheme.data ++ ' ' :: t.data := by
    simp [String.data_append]
  rw [hdata, cutChars_append t.data (no_space_of_toLower_bearer hs)]
  simp [mk_data, hs]

/-- C8 at `Bearer abc`, `bearer abc` and `BEARER abc`. -/
theorem extractTokenFromHeader_bearer_witness :
    extractTokenFromHeader (requestWithAuthorization "Bearer abc") = "abc" ∧
    extractTokenFromHeader (requestWithAuthorization "bearer abc") = "abc" ∧
    extractTokenFromHeader (requestWithAuthorization "BEARER abc") = "abc" :=
  ⟨extractTokenFromHeader_bearer (requestWithAuthorization "Bearer abc") "Bearer" "abc"
     (by decide) (by decide),
   extractTokenFromHeader_bearer (requestWithAuthorization "bearer abc") "bearer" "abc"
     (by decide) (by decide),
   extractTokenFromHeader_bearer (requestWithAuthorization "BEARER abc") "BEARER" "abc"
     (by decide) (by decide)⟩

/-! ## The token service -/

/-- C9: `NewAuth` returns an error and no instance exactly when one of the two
keys is nil; with both keys present it returns the instance holding exactly
those keys, and no error. -/
theorem NewAuth_spec :
    (∀ (pubKey : Option PublicKey) (privateKey : Option PrivateKey),
      ((NewAuth pubKey privateKey).1 = none ∧ (NewAuth pubKey privateKey).2 ≠ none) ↔
        (pubKey = none ∨ privateKey = none)) ∧
    (∀ (pub : PublicKey) (priv : PrivateKey),
      NewAuth (some pub) (some priv) =
        (some { privateKey := priv, publicKey := pub }, none)) := by
  refine ⟨fun pubKey privateKey => ?_, fun pub priv => rfl⟩
  cases pubKey <;> cases privateKey <;> simp [NewAuth]

theorem demoJwt_roundTrip : demoJwt.RoundTrip := by
  intro c key tokenString now hsign hexp _
  simp only [demoJwt, demoSignedString] at hsign
  simp only [demoJwt, demoParseWithClaims]
  cases hE : c.ExpiresAt with
  | none => simp [hE] at hsign
  | some exp =>
    cases hI : c.IssuedAt with
    | none => simp [hE, hI] at hsign
    | some iat =>
      simp only [hE, hI] at hsign
      split at hsign
      · rename_i hdec
        simp only [Prod.mk.injEq, and_true] at hsign
        subst hsign
        rw [hdec]
        simp [hE, hexp exp hE]
      · simp at hsign

theorem GenerateToken_ok {jwt : Jwt} {a : Auth} {now₁ now₂ : Time} {id : Int}
    {role tokenString : String}
    (h : GenerateToken jwt a now₁ now₂ id role = (tokenString, none)) :
    jwt.SignedString (issuedClaims now₁ now₂ id role) a.privateKey = (tokenString, none) := by
  unfold GenerateToken at h
  rcases hs : jwt.SignedString (issuedClaims now₁ now₂ id role) a.privateKey with ⟨t, e⟩
  simp only [hs] at h
  cases e with
  | none => simpa using h
  | some e => simp at h

theorem VerifyToken_of_valid {jwt : Jwt} {a : Auth} {now : Time} {tokenString : String}
    {c : Claims} (requiredRole : String)
    (h : jwt.ParseWithClaims tokenString a.publicKey now = (c, ⟨true⟩, none)) :
    VerifyToken jwt a now tokenString requiredRole =
      if c.Roles = Applicant then
        if c.Roles ≠ requiredRole then
          (none, some (errors.New "you are not authorized to perform this"))
        else (some c, none)
      else (some c, none) := by
  simp [VerifyToken, h]

/-- C1: a token that `GenerateToken` issued for `id` and `role` verifies, under
the key pair it was signed with, before its expiry and with `requiredRole =
role`: `VerifyToken` returns no error, and claims whose `Subject` is the decimal
form of `id` and whose `Roles` is `role`. -/
theorem VerifyToken_GenerateToken (jwt : Jwt) (hjwt : jwt.RoundTrip) (a : Auth)
    (hpair : a.publicKey = a.privateKey.toPublicKey) (now₁ now₂ now : Time) (id : Int)
    (role tokenString : String)
    (hgen : GenerateToken jwt a now₁ now₂ id role = (tokenString, none))
    (hnow : now.Before (NewNumericDate (now₁.Add (50 * Minute))).Time = true) :
    ∃ c : Claims, VerifyToken jwt a now tokenString role = (some c, none) ∧
      c.Subject = Itoa id ∧ c.Roles = role := by
  have hparse := hjwt (issuedClaims now₁ now₂ id role) a.privateKey tokenString now
    (GenerateToken_ok hgen)
    (by intro exp hexp; simp only [issuedClaims, Option.some.injEq] at hexp; rw [← hexp]; exact hnow)
    (by intro nbf hnbf; simp [issuedClaims] at hnbf)
  rw [← hpair] at hparse
  refine ⟨issuedClaims now₁ now₂ id role, ?_, rfl, rfl⟩
  rw [VerifyToken_of_valid role hparse]
  by_cases hr : role = Applicant <;> simp [issuedClaims, hr]

/-- C1 on `demoJwt`: the token issued for subject 42 and role `applicant` at
1000 s verifies ten minutes later, with subject `"42"`. -/
theorem VerifyToken_GenerateToken_witness :
    GenerateToken demoJwt demoAuth demoIssueTime demoIssueTime 42 Applicant
      = (demoApplicantToken, none) ∧
    ∃ c : Claims, VerifyToken demoJwt demoAuth demoLater demoApplicantToken Applicant
        = (some c, none) ∧ c.Subject = Itoa 42 ∧ c.Roles = Applicant :=
  ⟨by decide,
   VerifyToken_GenerateToken demoJwt demoJwt_roundTrip demoAuth rfl demoIssueTime demoIssueTime
     demoLater 42 Applicant demoApplicantToken (by decide) (by decide)⟩

/-- C2: for a token that parses as valid and carries the role `applicant`,
`VerifyToken` returns no claims and the authorization error for every
`requiredRole` other than `applicant` (for `admin` in particular), and returns
the claims without error for `requiredRole = applicant`. -/
theorem VerifyToken_applicant (jwt : Jwt) (a : Auth) (now : Time) (tokenString : String)
    (c : Claims) (hparse : jwt.ParseWithClaims tokenString a.publicKey now = (c, ⟨true⟩, none))
    (hrole : c.Roles = Applicant) :
    (∀ requiredRole : String, requiredRole ≠ Applicant →
      VerifyToken jwt a now tokenString requiredRole =
        (none, some (errors.New "you are not authorized to perform this"))) ∧
    VerifyToken jwt a now tokenString Admin =
      (none, some (errors.New "you are not authorized to perform this")) ∧
    VerifyToken jwt a now tokenString Applicant = (some c, none) := by
  have hwrong : ∀ requiredRole : String, requiredRole ≠ Applicant →
      VerifyToken jwt a now tokenString requiredRole =
        (none, some (errors.New "you are not authorized to perform this")) := by
    intro requiredRole hne
    rw [VerifyToken_of_valid requiredRole hparse, if_pos hrole, if_pos]
    rw [hrole]
    exact fun e => hne e.symm
  refine ⟨hwrong, hwrong Admin (by decide), ?_⟩
  rw [VerifyToken_of_valid Applicant hparse, if_pos hrole, if_neg]
  simp [hrole]

/-- C2 on the scenario of the specification: the token issued for subject 42
with role `applicant` is refused for `admin` and accepted, with subject `"42"`,
for `applicant`. -/
theorem VerifyToken_applicant_witness :
    VerifyToken demoJwt demoAuth demoLater demoApplicantToken Admin =
      (none, some (errors.New "you are not authorized to perform this")) ∧
    VerifyToken demoJwt demoAuth demoLater demoApplicantToken Applicant =
      (some (issuedClaims demoIssueTime demoIssueTime 42 Applicant), none) ∧
    (issuedClaims demoIssueTime demoIssueTime 42 Applicant).Subject = "42" :=
  ⟨(VerifyToken_applicant demoJwt demoAuth demoLater demoApplicantToken
      (issuedClaims demoIssueTime demoIssueTime 42 Applicant) (by decide) (by decide)).2.1,
   (VerifyToken_applicant demoJwt demoAuth demoLater demoApplicantToken
      (issuedClaims demoIssueTime demoIssueTime 42 Applicant) (by decide) (by decide)).2.2,
   by decide⟩

/-! ## The gate -/

theorem JWTMiddleware_of_no_token {σ : Type} (jwt : Jwt) (m : Mid) (handler : HandlerFunc σ)
    (requiredRole : String) (now : Time) (c : Context) (w : σ)
    (h : extractTokenFromHeader c.Request = "") :
    JWTMiddleware jwt m handler requiredRole now c w = (unauthorized c, w) := by
  simp [JWTMiddleware, h, unauthorized]

theorem JWTMiddleware_of_error {σ : Type} (jwt : Jwt) (m : Mid) (handler : HandlerFunc σ)
    (requiredRole : String) (now : Time) (c : Context) (w : σ)
    (h : (VerifyToken jwt m.a now (extractTokenFromHeader c.Request) requiredRole).2 ≠ none) :
    JWTMiddleware jwt m handler requiredRole now c w = (unauthorized c, w) := by
  unfold JWTMiddleware
  by_cases ht : extractTokenFromHeader c.Request = ""
  · simp [ht, unauthorized]
  · rcases hv : VerifyToken jwt m.a now (extractTokenFromHeader c.Request) requiredRole
      with ⟨cl, err⟩
    rw [hv] at h
    simp only [ht, if_false, hv]
    simp only [ne_eq] at h
    simp [h, unauthorized]

theorem JWTMiddleware_of_ok {σ : Type} (jwt : Jwt) (m : Mid) (handler : HandlerFunc σ)
    (requiredRole : String) (now : Time) (c : Context) (w : σ) (claims : Option Claims)
    (ht : extractTokenFromHeader c.Request ≠ "")
    (hv : VerifyToken jwt m.a now (extractTokenFromHeader c.Request) requiredRole
      = (claims, none)) :
    JWTMiddleware jwt m handler requiredRole now c w =
      handler (c.Set "claims" (Value.claims claims)) w := by
  simp [JWTMiddleware, ht, hv]

theorem Context.Get_Set (c : Context) (key : String) (value : Value) :
    (c.Set key value).Get key = some value := by
  simp [Context.Get, Context.Set, List.lookup]

theorem writtenSince_unauthorized (c : Context) :
    writtenSince c (unauthorized c) = [(401, [("error", "Unauthorized")])] := by
  simp [writtenSince, unauthorized, Context.AbortWithStatusJSON, Context.JSON, Context.Abort,
    StatusUnauthorized]

/-- C3, as stated, fails: on a route that requires `applicant`, a request
carrying a valid `admin` token reaches the wrapped operation (the probe counts
one call), although no claims with role `applicant` were verified. -/
theorem JWTMiddleware_admin_on_applicant_route :
    (JWTMiddleware demoJwt demoMid callProbe Applicant demoLater
      (bearerContext demoAdminToken) 0).2 = 1 ∧
    VerifyToken demoJwt demoAuth demoLater
      (extractTokenFromHeader (bearerContext demoAdminToken).Request) Applicant =
      (some (issuedClaims demoIssueTime demoIssueTime 7 Admin), none) ∧
    (issuedClaims demoIssueTime demoIssueTime 7 Admin).Roles ≠ Applicant := by
  decide

theorem extractTokenFromHeader_of_absent (r : Request)
    (h : r.Header.lookup "Authorization" = none) : extractTokenFromHeader r = "" := by
  simp [extractTokenFromHeader, Header.Get, h]

/-- C4: when `extractTokenFromHeader` yields the empty string, and in particular
when the request has no `Authorization` header, the handler returned by
`JWTMiddleware` answers 401 with the body `error: Unauthorized`, aborts, leaves
the key map as it was (no claims attached), and does not run the wrapped
operation: the world is untouched for every handler, and a call-count probe
counts zero calls. -/
theorem JWTMiddleware_no_token {σ : Type} (jwt : Jwt) (m : Mid) (handler : HandlerFunc σ)
    (requiredRole : String) (now : Time) (c : Context) (w : σ)
    (h : extractTokenFromHeader c.Request = "" ∨
      c.Request.Header.lookup "Authorization" = none) :
    JWTMiddleware jwt m handler requiredRole now c w = (unauthorized c, w) ∧
    writtenSince c (JWTMiddleware jwt m handler requiredRole now c w).1
      = [(401, [("error", "Unauthorized")])] ∧
    (JWTMiddleware jwt m handler requiredRole now c w).1.aborted = true ∧
    (JWTMiddleware jwt m handler requiredRole now c w).1.Keys = c.Keys ∧
    (∀ n : Nat, (JWTMiddleware jwt m callProbe requiredRole now c n).2 = n) := by
  have htok : extractTokenFromHeader c.Request = "" := by
    rcases h with h | h
    · exact h
    · exact extractTokenFromHeader_of_absent c.Request h
  refine ⟨JWTMiddleware_of_no_token jwt m handler requiredRole now c w htok, ?_, ?_, ?_, ?_⟩
  · rw [JWTMiddleware_of_no_token jwt m handler requiredRole now c w htok]
    exact writtenSince_unauthorized c
  · rw [JWTMiddleware_of_no_token jwt m handler requiredRole now c w htok]
    rfl
  · rw [JWTMiddleware_of_no_token jwt m handler requiredRole now c w htok]
    rfl
  · intro n
    rw [JWTMiddleware_of_no_token jwt m callProbe requiredRole now c n htok]

/-- C4 on a request without headers, with the probe as wrapped operation. -/
theorem JWTMiddleware_no_token_witness :
    noHeaderContext.Request.Header.lookup "Authorization" = none ∧
    JWTMiddleware demoJwt demoMid callProbe Admin demoLater noHeaderContext 0
      = (unauthorized noHeaderContext, 0) ∧
    (JWTMiddleware demoJwt demoMid callProbe Admin demoLater noHeaderContext 0).1.Get "claims"
      = none :=
  ⟨by decide,
   (JWTMiddleware_no_token demoJwt demoMid callProbe Admin demoLater noHeaderContext 0
      (Or.inr (by decide))).1,
   by decide⟩

/-- C5: any two requests the gate rejects, for whichever reason, get the same
response (one write of status 401 with the body `error: Unauthorized`, chain
aborted), and neither reaches its wrapped operation. -/
theorem JWTMiddleware_rejections_uniform {σ τ : Type} (jwt : Jwt) (m : Mid)
    (handler₁ : HandlerFunc σ) (handler₂ : HandlerFunc τ) (role₁ role₂ : String)
    (now₁ now₂ : Time) (c₁ c₂ : Context) (w₁ : σ) (w₂ : τ)
    (h₁ : gateRejects jwt m role₁ now₁ c₁) (h₂ : gateRejects jwt m role₂ now₂ c₂) :
    JWTMiddleware jwt m handler₁ role₁ now₁ c₁ w₁ = (unauthorized c₁, w₁) ∧
    JWTMiddleware jwt m handler₂ role₂ now₂ c₂ w₂ = (unauthorized c₂, w₂) ∧
    writtenSince c₁ (JWTMiddleware jwt m handler₁ role₁ now₁ c₁ w₁).1
      = [(401, [("error", "Unauthorized")])] ∧
    writtenSince c₂ (JWTMiddleware jwt m handler₂ role₂ now₂ c₂ w₂).1
      = writtenSince c₁ (JWTMiddleware jwt m handler₁ role₁ now₁ c₁ w₁).1 ∧
    (JWTMiddleware jwt m handler₂ role₂ now₂ c₂ w₂).1.aborted
      = (JWTMiddleware jwt m handler₁ role₁ now₁ c₁ w₁).1.aborted := by
  have e₁ : JWTMiddleware jwt m handler₁ role₁ now₁ c₁ w₁ = (unauthorized c₁, w₁) := by
    rcases h₁ with h | h
    · exact JWTMiddleware_of_no_token jwt m handler₁ role₁ now₁ c₁ w₁ h
    · exact JWTMiddleware_of_error jwt m handler₁ role₁ now₁ c₁ w₁ h
  have e₂ : JWTMiddleware jwt m handler₂ role₂ now₂ c₂ w₂ = (unauthorized c₂, w₂) := by
    rcases h₂ with h | h
    · exact JWTMiddleware_of_no_token jwt m handler₂ role₂ now₂ c₂ w₂ h
    · exact JWTMiddleware_of_error jwt m handler₂ role₂ now₂ c₂ w₂ h
  refine ⟨e₁, e₂, ?_, ?_, ?_⟩
  · rw [e₁]
    exact writtenSince_unauthorized c₁
  · rw [e₁, e₂]
    simp only [writtenSince_unauthorized]
  · rw [e₁, e₂]
    rfl

/-- The five ways to be rejected, on `demoJwt`: no header, a malformed token, an
expired token, a token verified under another key, and an applicant token on an
admin route. -/
theorem gateRejects_cases :
    gateRejects demoJwt demoMid Admin demoLater noHeaderContext ∧
    gateRejects demoJwt demoMid Admin demoLater (bearerContext "abc") ∧
    gateRejects demoJwt demoMid Applicant (demoIssueTime.Add (50 * Minute))
      (bearerContext demoApplicantToken) ∧
    gateRejects demoJwt { a := { demoAuth with publicKey := ⟨3233, 5⟩ } } Applicant demoLater
      (bearerContext demoApplicantToken) ∧
    gateRejects demoJwt demoMid Admin demoLater (bearerContext demoApplicantToken) := by
  decide

/-- C5 on a request without headers and a request with an applicant token on an
admin route: both get the same response. -/
theorem JWTMiddleware_rejections_uniform_witness :
    writtenSince (bearerContext demoApplicantToken)
        (JWTMiddleware demoJwt demoMid callProbe Admin demoLater
          (bearerContext demoApplicantToken) 0).1
      = writtenSince noHeaderContext
        (JWTMiddleware demoJwt demoMid callProbe Admin demoLater noHeaderContext 0).1 :=
  (JWTMiddleware_rejections_uniform demoJwt demoMid callProbe callProbe Admin Admin demoLater
    demoLater noHeaderContext (bearerContext demoApplicantToken) 0 0
    (by decide) (by decide)).2.2.2.1

/-- C6: when a token is extracted and `VerifyToken` succeeds on it with claims
`cl`, the handler returned by `JWTMiddleware` is exactly the wrapped operation
run once on the context in which the key `claims` is bound to `cl`; the
operation reads `cl` back from that key (as `Get` and as the handlers do it),
and a call-count probe counts one call. -/
theorem JWTMiddleware_dispatches {σ : Type} (jwt : Jwt) (m : Mid) (handler : HandlerFunc σ)
    (requiredRole : String) (now : Time) (c : Context) (w : σ) (cl : Claims)
    (ht : extractTokenFromHeader c.Request ≠ "")
    (hv : VerifyToken jwt m.a now (extractTokenFromHeader c.Request) requiredRole
      = (some cl, none)) :
    JWTMiddleware jwt m handler requiredRole now c w
      = handler (c.Set "claims" (Value.claims (some cl))) w ∧
    (c.Set "claims" (Value.claims (some cl))).Get "claims" = some (Value.claims (some cl)) ∧
    claimsFromContext (c.Set "claims" (Value.claims (some cl))) = .ok (some cl) ∧
    (∀ n : Nat, JWTMiddleware jwt m callProbe requiredRole now c n
      = (c.Set "claims" (Value.claims (some cl)), n + 1)) :=
  ⟨JWTMiddleware_of_ok jwt m handler requiredRole now c w (some cl) ht hv,
   Context.Get_Set c "claims" (Value.claims (some cl)),
   by simp [claimsFromContext, Context.Get_Set],
   fun n => JWTMiddleware_of_ok jwt m callProbe requiredRole now c n (some cl) ht hv⟩

/-- C6 on the applicant token and an applicant route: the probe is called once
and finds the claims of subject `"42"` under the key `claims`. -/
theorem JWTMiddleware_dispatches_witness :
    (JWTMiddleware demoJwt demoMid callProbe Applicant demoLater
      (bearerContext demoApplicantToken) 0).2 = 1 ∧
    (JWTMiddleware demoJwt demoMid callProbe Applicant demoLater
      (bearerContext demoApplicantToken) 0).1.Get "claims"
      = some (Value.claims (some (issuedClaims demoIssueTime demoIssueTime 42 Applicant))) := by
  have h := (JWTMiddleware_dispatches demoJwt demoMid callProbe Applicant demoLater
    (bearerContext demoApplicantToken) 0
    (issuedClaims demoIssueTime demoIssueTime 42 Applicant) (by decide) (by decide)).2.2.2 0
  rw [h]
  exact ⟨rfl, Context.Get_Set _ _ _⟩

/-! ## Expiry, roles other than applicant, the time of the call -/

theorem demoJwt_checksExpiry : demoJwt.ChecksExpiry := by
  intro tokenString key now exp hexp hpast
  simp only [demoJwt, demoParseWithClaims] at hexp ⊢
  cases hdec : demoDecode tokenString with
  | none => simp [hdec] at hexp
  | some p =>
    obtain ⟨c, k⟩ := p
    simp only [hdec] at hexp ⊢
    by_cases hk : k = key
    · simp only [hk, ne_eq, not_true_eq_false, if_false] at hexp ⊢
      cases hE : c.ExpiresAt with
      | none => simp [hE] at hexp
      | some e =>
        simp only [hE] at hexp ⊢
        by_cases hb : now.Before e.Time = true
        · simp only [hb, if_true] at hexp
          rw [hE] at hexp
          simp only [Option.some.injEq] at hexp
          subst hexp
          simp only [Time.Before, decide_eq_true_eq] at hb hpast
          omega
        · simp [hb]
    · simp [hk]

/-- C11: given that the parser rejects expired tokens, a token whose decoded
`ExpiresAt` is earlier than the time of verification makes `VerifyToken` return
an error and no claims, for every `requiredRole` and under every public key. -/
theorem VerifyToken_expired (jwt : Jwt) (hjwt : jwt.ChecksExpiry) (a : Auth) (now : Time)
    (tokenString requiredRole : String) (exp : NumericDate)
    (hexp : (jwt.ParseWithClaims tokenString a.publicKey now).1.ExpiresAt = some exp)
    (hpast : exp.Time.Before now = true) :
    (VerifyToken jwt a now tokenString requiredRole).1 = none ∧
    (VerifyToken jwt a now tokenString requiredRole).2 ≠ none := by
  have herr := hjwt tokenString a.publicKey now exp hexp hpast
  rcases hp : jwt.ParseWithClaims tokenString a.publicKey now with ⟨c, tk, err⟩
  rw [hp] at herr
  simp only [ne_eq] at herr
  simp [VerifyToken, hp, herr]

/-- C11 on `demoJwt`: the applicant token, which expires at 4000 s, is refused
at 4600 s although it is signed with the right key and the role matches. -/
theorem VerifyToken_expired_witness :
    (VerifyToken demoJwt demoAuth demoExpired demoApplicantToken Applicant).1 = none ∧
    (VerifyToken demoJwt demoAuth demoExpired demoApplicantToken Applicant).2 ≠ none :=
  VerifyToken_expired demoJwt demoJwt_checksExpiry demoAuth demoExpired demoApplicantToken
    Applicant ⟨4000⟩ (by decide) (by decide)

theorem GenerateToken_eq (jwt : Jwt) (a : Auth) (now₁ now₂ : Time) (id : Int)
    (role : String) :
    GenerateToken jwt a now₁ now₂ id role =
      match jwt.SignedString (issuedClaims now₁ now₂ id role) a.privateKey with
      | (encodedToken, none) => (encodedToken, none)
      | (_, some e) => ("", some e) := by
  unfold GenerateToken
  rcases hs : jwt.SignedString (issuedClaims now₁ now₂ id role) a.privateKey with ⟨tk, err⟩
  cases err <;> simp [hs]

/-- C13: for a token that parses as valid and whose role is `admin`, or any
role other than `applicant`, `VerifyToken` returns the token's claims and no
error for every `requiredRole`, `applicant` included. -/
theorem VerifyToken_non_applicant (jwt : Jwt) (a : Auth) (now : Time) (tokenString : String)
    (c : Claims) (hparse : jwt.ParseWithClaims tokenString a.publicKey now = (c, ⟨true⟩, none))
    (hrole : c.Roles = Admin ∨ c.Roles ≠ Applicant) :
    (∀ requiredRole : String, VerifyToken jwt a now tokenString requiredRole = (some c, none)) ∧
    VerifyToken jwt a now tokenString Applicant = (some c, none) := by
  have hne : c.Roles ≠ Applicant := by
    rcases hrole with h | h
    · rw [h]
      decide
    · exact h
  have hall : ∀ requiredRole : String,
      VerifyToken jwt a now tokenString requiredRole = (some c, none) := by
    intro requiredRole
    rw [VerifyToken_of_valid requiredRole hparse, if_neg hne]
  exact ⟨hall, hall Applicant⟩

/-- C13 on `demoJwt`: the admin token verifies with `requiredRole = applicant`. -/
theorem VerifyToken_non_applicant_witness :
    VerifyToken demoJwt demoAuth demoLater demoAdminToken Applicant =
      (some (issuedClaims demoIssueTime demoIssueTime 7 Admin), none) :=
  (VerifyToken_non_applicant demoJwt demoAuth demoLater demoAdminToken
    (issuedClaims demoIssueTime demoIssueTime 7 Admin) (by decide) (Or.inl (by decide))).2

theorem cutChars_of_mem {sep : Char} {cs : List Char} (h : sep ∈ cs) :
    ∃ pre rest, cutChars sep cs = some (pre, rest) := by
  induction cs with
  | nil => simp at h
  | cons c cs ih =>
    by_cases hc : c = sep
    · exact ⟨[], cs, by simp [cutChars, hc]⟩
    · have hmem : sep ∈ cs := by
        rcases List.mem_cons.mp h with h | h
        · exact absurd h.symm hc
        · exact h
      obtain ⟨pre, rest, hcut⟩ := ih hmem
      exact ⟨c :: pre, rest, by simp [cutChars, hc, hcut]⟩

theorem cutChars_some_dropWhile {sep : Char} {cs pre rest : List Char}
    (h : cutChars sep cs = some (pre, rest)) :
    (cs.dropWhile (fun c => c != sep)).tail = rest := by
  induction cs generalizing pre with
  | nil => simp [cutChars] at h
  | cons c cs ih =>
    by_cases hc : c = sep
    · simp [cutChars, hc] at h
      simp [List.dropWhile, hc, h.2]
    · simp only [cutChars, hc, if_false, Option.map_eq_some'] at h
      obtain ⟨⟨p, q⟩, hpq, hp⟩ := h
      simp only [Prod.mk.injEq] at hp
      obtain ⟨_, h2⟩ := hp
      subst h2
      have hne : (c != sep) = true := by simp [hc]
      rw [List.dropWhile_cons, hne]
      simp only [if_true]
      exact ih hpq

/-- C17: `extractTokenFromHeader` returns the text after the first space of the
`Authorization` value when the value contains a space and the text before that
first space lower-cases to `bearer`, and the empty string otherwise. So
`Bearer ` with an empty token gives the empty string and the gate rejects it
exactly as it rejects a request without the header, and `Bearer a b` gives
`a b`. -/
theorem extractTokenFromHeader_closed_form (r : Request) (jwt : Jwt) (m : Mid)
    (requiredRole : String) (now : Time) (n : Nat) :
    extractTokenFromHeader r =
      (if ' ' ∈ (Header.Get r.Header "Authorization").data ∧
          ToLower ⟨(Header.Get r.Header "Authorization").data.takeWhile (fun c => c != ' ')⟩
            = "bearer"
        then ⟨((Header.Get r.Header "Authorization").data.dropWhile (fun c => c != ' ')).tail⟩
        else "") ∧
    extractTokenFromHeader (requestWithAuthorization "Bearer ") = "" ∧
    extractTokenFromHeader (requestWithAuthorization "Bearer a b") = "a b" ∧
    JWTMiddleware jwt m callProbe requiredRole now (bearerContext "") n
      = (unauthorized (bearerContext ""), n) ∧
    JWTMiddleware jwt m callProbe requiredRole now noHeaderContext n
      = (unauthorized noHeaderContext, n) := by
  refine ⟨?_, by decide, by decide, ?_, ?_⟩
  · rw [extractTokenFromHeader_eq]
    cases hcut : cutChars ' ' (Header.Get r.Header "Authorization").data with
    | none =>
      have hno : ' ' ∉ (Header.Get r.Header "Authorization").data := by
        intro hmem
        obtain ⟨pre, rest, h⟩ := cutChars_of_mem hmem
        rw [hcut] at h
        exact Option.noConfusion h
      simp [hno]
    | some p =>
      obtain ⟨pre, rest⟩ := p
      obtain ⟨hpre, hall⟩ := cutChars_some hcut
      have hmem : ' ' ∈ (Header.Get r.Header "Authorization").data := by
        rw [hall]
        simp
      rw [cutChars_some_dropWhile hcut, ← hpre]
      simp [hmem]
  · exact JWTMiddleware_of_no_token jwt m callProbe requiredRole now (bearerContext "") n
      (by decide)
  · exact JWTMiddleware_of_no_token jwt m callProbe requiredRole now noHeaderContext n
      (by decide)

/-! ## The format check of `UploadResume` -/

theorem lastIndexChars_bounds (sep : Char) (cs : List Char) :
    -1 ≤ lastIndexChars sep cs ∧ lastIndexChars sep cs < cs.length := by
  induction cs with
  | nil => simp [lastIndexChars]
  | cons c cs ih =>
    obtain ⟨ih1, ih2⟩ := ih
    have hlen : ((c :: cs).length : Int) = (cs.length : Int) + 1 := by
      simp
    rw [hlen]
    by_cases h : 0 ≤ lastIndexChars sep cs
    · simp only [lastIndexChars, h, if_true]
      omega
    · by_cases hc : c = sep
      · simp only [lastIndexChars, h, hc, if_true, if_false]
        omega
      · simp only [lastIndexChars, h, hc, if_false]
        omega

theorem lastIndexChars_nonneg_iff (sep : Char) (cs : List Char) :
    0 ≤ lastIndexChars sep cs ↔ sep ∈ cs := by
  induction cs with
  | nil => simp [lastIndexChars]
  | cons c cs ih =>
    simp only [lastIndexChars, List.mem_cons]
    by_cases h : 0 ≤ lastIndexChars sep cs
    · simp only [h, if_true]
      constructor
      · intro _
        exact Or.inr (ih.mp h)
      · intro _
        omega
    · have hno : sep ∉ cs := fun hm => h (ih.mpr hm)
      simp only [h, if_false]
      by_cases hc : c = sep
      · simp [hc]
      · have hc' : ¬ sep = c := fun e => hc e.symm
        simp [hc, hc', hno]

theorem drop_lastIndexChars (sep : Char) (cs : List Char) :
    cs.drop (lastIndexChars sep cs + 1).toNat
      = (cs.reverse.takeWhile (fun c => c != sep)).reverse := by
  induction cs with
  | nil => simp [lastIndexChars]
  | cons c cs ih =>
    have hb := lastIndexChars_bounds sep cs
    by_cases h : 0 ≤ lastIndexChars sep cs
    · have hmem : sep ∈ cs := (lastIndexChars_nonneg_iff sep cs).mp h
      have hidx : (lastIndexChars sep (c :: cs) + 1).toNat
          = (lastIndexChars sep cs + 1).toNat + 1 := by
        simp only [lastIndexChars, h, if_true]
        omega
      rw [hidx, List.drop_succ_cons, ih, List.reverse_cons, List.takeWhile_append]
      have hlen : ¬ (List.takeWhile (fun c => c != sep) cs.reverse).length
          = cs.reverse.length := by
        intro hl
        have hself : List.takeWhile (fun c => c != sep) cs.reverse = cs.reverse :=
          (List.takeWhile_sublist _).eq_of_length hl
        have hall := List.takeWhile_eq_self_iff.mp hself
        have := hall sep (List.mem_reverse.mpr hmem)
        simp at this
      rw [if_neg hlen]
    · have hno : sep ∉ cs := fun hm => h ((lastIndexChars_nonneg_iff sep cs).mpr hm)
      have hall : List.takeWhile (fun c => c != sep) cs.reverse = cs.reverse := by
        apply List.takeWhile_eq_self_iff.mpr
        intro x hx
        have hx' : x ∈ cs := List.mem_reverse.mp hx
        have : x ≠ sep := fun e => hno (e ▸ hx')
        simp [this]
      rw [List.reverse_cons, List.takeWhile_append, hall]
      simp only [if_true]
      by_cases hc : c = sep
      · have hidx : (lastIndexChars sep (c :: cs) + 1).toNat = 1 := by
          simp [lastIndexChars, h, hc]
        rw [hidx]
        simp [hc]
      · have hidx : (lastIndexChars sep (c :: cs) + 1).toNat = 0 := by
          simp [lastIndexChars, h, hc]
        rw [hidx]
        simp [hc]

theorem resumeExt_eq (fileName : String) :
    resumeExt fileName = some (ToLower (afterLastDot fileName)) := by
  have hb := lastIndexChars_bounds '.' fileName.data
  have hin : 0 ≤ LastIndex fileName '.' + 1 ∧
      LastIndex fileName '.' + 1 ≤ (fileName.data.length : Int) := by
    simp only [LastIndex]
    omega
  simp only [LastIndex] at hin
  simp only [resumeExt, sliceFrom, afterLastDot, LastIndex, if_pos hin, Option.map_some',
    drop_lastIndexChars]

/-- C20: the slice expression of `UploadResume` is always within range (the
index lies between 0 and the length of the name), the extension it yields is
the lower-cased text after the last `.` (the whole name when there is none),
and the upload passes the format check exactly when that extension is `pdf` or
`docx`; so `PDF` without a dot is accepted and `cv.` is refused. -/
theorem resumeFormatCheck_spec (c : Context) (fileName : String) :
    (0 ≤ LastIndex fileName '.' + 1 ∧
      LastIndex fileName '.' + 1 ≤ (fileName.data.length : Int)) ∧
    sliceFrom fileName (LastIndex fileName '.' + 1) = some (afterLastDot fileName) ∧
    resumeExt fileName = some (ToLower (afterLastDot fileName)) ∧
    resumeFormatCheck c fileName =
      (if ToLower (afterLastDot fileName) = "pdf" ∨ ToLower (afterLastDot fileName) = "docx"
        then some (.ok (ToLower (afterLastDot fileName)))
        else some (.error (c.JSON 400
          [("error", "unsupported file format. Only PDF and DOCX files are allowed.")]))) ∧
    resumeFormatCheck c "PDF" = some (.ok "pdf") ∧
    resumeFormatCheck c "cv." = some (.error (c.JSON 400
      [("error", "unsupported file format. Only PDF and DOCX files are allowed.")])) := by
  have hb := lastIndexChars_bounds '.' fileName.data
  have hin : 0 ≤ LastIndex fileName '.' + 1 ∧
      LastIndex fileName '.' + 1 ≤ (fileName.data.length : Int) := by
    simp only [LastIndex]
    omega
  have hgen : ∀ name : String, resumeFormatCheck c name =
      (if ToLower (afterLastDot name) = "pdf" ∨ ToLower (afterLastDot name) = "docx"
        then some (.ok (ToLower (afterLastDot name)))
        else some (.error (c.JSON 400
          [("error", "unsupported file format. Only PDF and DOCX files are allowed.")]))) := by
    intro name
    simp only [resumeFormatCheck, resumeExt_eq, StatusBadRequest]
    by_cases h1 : ToLower (afterLastDot name) = "pdf"
    · simp [h1]
    · by_cases h2 : ToLower (afterLastDot name) = "docx"
      · simp [h2]
      · simp [h1, h2]
  refine ⟨hin, ?_, resumeExt_eq fileName, hgen fileName, ?_, ?_⟩
  · simp only [LastIndex] at hin
    simp only [sliceFrom, afterLastDot, LastIndex, if_pos hin, drop_lastIndexChars]
  · have h : ToLower (afterLastDot "PDF") = "pdf" := by decide
    rw [hgen, h]
    simp
  · have h : ToLower (afterLastDot "cv.") = "" := by decide
    have h1 : ¬ (("" : String) = "pdf" ∨ ("" : String) = "docx") := by decide
    rw [hgen, h, if_neg h1]

/-! ## `strconv`: reading back what `Itoa` wrote -/

theorem digit_rune_facts : ∀ k : Nat, k < 10 →
    (Char.ofNat (48 + k)).isDigit = true ∧ (Char.ofNat (48 + k)).toNat - 48 = k := by
  decide

theorem digitsValue_append (ds : List Char) (d : Char) :
    digitsValue (ds ++ [d]) = digitsValue ds * 10 + (d.toNat - 48) := by
  simp [digitsValue, List.foldl_append]

theorem natDigits_spec (fuel : Nat) : ∀ n : Nat, n < fuel →
    natDigits fuel n ≠ [] ∧ (natDigits fuel n).all Char.isDigit = true ∧
      digitsValue (natDigits fuel n) = n := by
  induction fuel with
  | zero => intro n h; omega
  | succ fuel ih =>
    intro n hn
    by_cases hsmall : n < 10
    · obtain ⟨h1, h2⟩ := digit_rune_facts n hsmall
      simp [natDigits, hsmall, h1, digitsValue, h2]
    · have hlt : n / 10 < fuel := by omega
      obtain ⟨_, hall, hval⟩ := ih (n / 10) hlt
      obtain ⟨h1, h2⟩ := digit_rune_facts (n % 10) (Nat.mod_lt n (by decide))
      refine ⟨?_, ?_, ?_⟩
      · simp [natDigits, hsmall]
      · simp only [natDigits, hsmall, if_false, List.all_append, hall, Bool.true_and]
        simp [h1]
      · simp only [natDigits, hsmall, if_false]
        rw [digitsValue_append, hval, h2]
        omega

theorem Atoi_of_digits (ds : List Char) (hne : ds ≠ [])
    (hall : ds.all Char.isDigit = true) (hrange : digitsValue ds < 2 ^ 63) :
    Atoi ⟨ds⟩ = (((digitsValue ds : Nat) : Int), none) := by
  cases ds with
  | nil => exact absurd rfl hne
  | cons c rest =>
    have hc : c.isDigit = true := by
      simp only [List.all_cons, Bool.and_eq_true] at hall
      exact hall.1
    have hminus : c ≠ '-' := by
      intro e
      rw [e] at hc
      exact absurd hc (by decide)
    have hplus : c ≠ '+' := by
      intro e
      rw [e] at hc
      exact absurd hc (by decide)
    have hall' := hall
    simp only [List.all_cons, Bool.and_eq_true] at hall'
    have hlt : digitsValue (c :: rest) < 9223372036854775808 := by
      norm_num at hrange
      exact hrange
    unfold Atoi
    simp [hminus, hplus, hall', hlt]

theorem Atoi_of_minus_digits (ds : List Char) (hne : ds ≠ [])
    (hall : ds.all Char.isDigit = true) (hrange : digitsValue ds ≤ 2 ^ 63) :
    Atoi ⟨'-' :: ds⟩ = (-((digitsValue ds : Nat) : Int), none) := by
  have hle : digitsValue ds ≤ 9223372036854775808 := by
    norm_num at hrange
    exact hrange
  unfold Atoi
  simp [hne, hall, hle]

theorem Atoi_Itoa_eq (id : Int) (hlo : -2 ^ 63 ≤ id) (hhi : id < 2 ^ 63) :
    Atoi (Itoa id) = (id, none) := by
  cases id with
  | ofNat n =>
    obtain ⟨hne, hall, hval⟩ := natDigits_spec (n + 1) n (by omega)
    have hn : n < 2 ^ 63 := by
      have : (Int.ofNat n) = (n : Int) := rfl
      rw [this] at hhi
      exact_mod_cast hhi
    simp only [Itoa]
    rw [Atoi_of_digits _ hne hall (by rw [hval]; exact hn), hval]
    rfl
  | negSucc n =>
    obtain ⟨hne, hall, hval⟩ := natDigits_spec (n + 2) (n + 1) (by omega)
    have hn : n + 1 ≤ 2 ^ 63 := by
      have : Int.negSucc n = -((n : Int) + 1) := rfl
      rw [this] at hlo
      have h2 : ((n : Int) + 1) ≤ 2 ^ 63 := by omega
      exact_mod_cast h2
    simp only [Itoa]
    rw [Atoi_of_minus_digits _ hne hall (by rw [hval]; exact hn), hval]
    rfl

/-- C18: for every id within the 64-bit `int` (negative and zero included),
`strconv.Atoi` applied to `strconv.Itoa(id)`, the subject `GenerateToken`
writes, gives back `id` without error; so `CreateJob`, `HasApplied` and
`ApplyForJob`, called with that subject, skip their conversion-error branch and
go on with `id`. -/
theorem Atoi_Itoa {σ : Type} (js : JobService σ) (newJob : NewJob) (now₁ now₂ : Time)
    (jobID : Int) (w : σ) (role : String) (id : Int)
    (hlo : -2 ^ 63 ≤ id) (hhi : id < 2 ^ 63) :
    Atoi (issuedClaims now₁ now₂ id role).Subject = (id, none) ∧
    Atoi (Itoa id) = (id, none) ∧
    CreateJob js newJob (Itoa id) now₁ now₂ w = createJobInsert js newJob id now₁ now₂ w ∧
    HasApplied js (Itoa id) jobID w = hasAppliedQuery js id jobID w ∧
    ApplyForJob js (Itoa id) jobID w =
      (match hasAppliedQuery js id jobID w with
        | (_, some err) => (w, some (Errorf "failed to check application status" err))
        | (hasApplied, none) =>
          if hasApplied then (w, some (errors.New "user has already applied for this job"))
          else applyInsert js id jobID w) := by
  have h := Atoi_Itoa_eq id hlo hhi
  refine ⟨h, h, ?_, ?_, ?_⟩
  · simp only [CreateJob, h]
  · simp only [HasApplied, h]
  · simp only [ApplyForJob, HasApplied, h]

/-- C18 on the ids -42, 0 and 42. -/
theorem Atoi_Itoa_witness :
    Atoi (Itoa (-42)) = (-42, none) ∧ Atoi (Itoa 0) = (0, none) ∧
    Atoi (Itoa 42) = (42, none) ∧
    HasApplied demoJobService (Itoa (-42)) 1 [] = hasAppliedQuery demoJobService (-42) 1 [] :=
  ⟨(Atoi_Itoa demoJobService {} demoIssueTime demoIssueTime 1 [] Applicant (-42)
      (by decide) (by decide)).2.1,
   (Atoi_Itoa demoJobService {} demoIssueTime demoIssueTime 1 [] Applicant 0
      (by decide) (by decide)).2.1,
   (Atoi_Itoa demoJobService {} demoIssueTime demoIssueTime 1 [] Applicant 42
      (by decide) (by decide)).2.1,
   (Atoi_Itoa demoJobService {} demoIssueTime demoIssueTime 1 [] Applicant (-42)
      (by decide) (by decide)).2.2.2.1⟩

/-! ## The handlers behind the gate -/

theorem JobApplyHandler_of_other_role {σ : Type} (js : JobService σ) (c : Context) (w : σ)
    (claims : Claims) (hc : claimsFromContext c = .ok (some claims))
    (hrole : claims.Roles ≠ "Applicant") :
    JobApplyHandler js c w =
      (c.JSON 401 [("error", "Only Applicant users are allowed to apply for jobs")], w) := by
  simp [JobApplyHandler, hc, hrole, StatusUnauthorized]

theorem GetApplicantsHandler_of_other_role {σ : Type} (us : UserService) (c : Context) (w : σ)
    (claims : Claims) (hc : c.Get "claims" = some (Value.claims (some claims)))
    (hrole : claims.Roles ≠ "Admin") :
    GetApplicantsHandler us c w =
      (c.JSON 401 [("error", "Only Admin users are allowed to access this API")], w) := by
  simp [GetApplicantsHandler, hc, hrole, StatusUnauthorized]

/-- C15, the failing case: a request for `/api/jobs/apply/1` with a token whose
role is `auth.Applicant` passes the gate of that route, and `JobApplyHandler`
then answers 401 `Only Applicant users are allowed to apply for jobs` without
applying, because it compares the role with the literal `Applicant`. -/
theorem JobApplyHandler_refuses_auth_applicant :
    (issuedClaims demoIssueTime demoIssueTime 42 Applicant).Roles = Applicant ∧
    Applicant ≠ "Applicant" ∧
    JWTMiddleware demoJwt demoMid (JobApplyHandler demoJobService) Applicant demoLater
        (applyContext demoApplicantToken) [] =
      (((applyContext demoApplicantToken).Set "claims"
          (Value.claims (some (issuedClaims demoIssueTime demoIssueTime 42 Applicant)))).JSON 401
        [("error", "Only Applicant users are allowed to apply for jobs")], []) := by
  decide

/-- C16, the failing case: a request for the applicant list with a token whose
role is `auth.Admin` passes the gate of that route, and `GetApplicantsHandler`
then answers 401 `Only Admin users are allowed to access this API` instead of
listing, because it compares the role with the literal `Admin`. -/
theorem GetApplicantsHandler_refuses_auth_admin :
    (issuedClaims demoIssueTime demoIssueTime 7 Admin).Roles = Admin ∧
    Admin ≠ "Admin" ∧
    JWTMiddleware demoJwt demoMid (GetApplicantsHandler demoUserService) Admin demoLater
        (bearerContext demoAdminToken) () =
      (((bearerContext demoAdminToken).Set "claims"
          (Value.claims (some (issuedClaims demoIssueTime demoIssueTime 7 Admin)))).JSON 401
        [("error", "Only Admin users are allowed to access this API")], ()) := by
  decide

/-! ## Login -/

theorem Authenticate_eq (us : UserService) (bcrypt : CompareHashAndPassword)
    (email userType password : String) :
    Authenticate us bcrypt email userType password =
      match us.queryUser (ToLower email) with
      | .error err => (none, some (Errorf "authenticate" err))
      | .ok (id, passwordHash, storedType) =>
        match bcrypt passwordHash password with
        | some err => (none, some (Errorf "authenticate" err))
        | none =>
          (some { ID := id, Email := ToLower email, UserType := storedType,
                  PasswordHash := passwordHash }, none) := by
  unfold Authenticate
  rcases hq : us.queryUser (ToLower email) with err | ⟨id, passwordHash, storedType⟩
  · simp [hq]
  · simp only [hq]

/-- C19: the outcome of `Authenticate`, and with it the whole answer of
`ProcessLoginIn`, is the same for any two values of the `userType` sent by the
client; when the stored row is `(id, hash, storedType)` and the password
matches, the user returned has `UserType = storedType` and the token is the one
`GenerateToken` issues for `id` and `storedType`. -/
theorem Authenticate_ignores_userType (jwt : Jwt) (a : Auth) (us : UserService)
    (bcrypt : CompareHashAndPassword) (now₁ now₂ : Time) (c : Context)
    (email password userType₁ userType₂ : String) :
    Authenticate us bcrypt email userType₁ password =
      Authenticate us bcrypt email userType₂ password ∧
    ProcessLoginIn jwt a us bcrypt now₁ now₂ (.ok ⟨email, password, userType₁⟩) c =
      ProcessLoginIn jwt a us bcrypt now₁ now₂ (.ok ⟨email, password, userType₂⟩) c ∧
    (∀ (id : Int) (passwordHash storedType : String),
      us.queryUser (ToLower email) = .ok (id, passwordHash, storedType) →
      bcrypt passwordHash password = none →
      Authenticate us bcrypt email userType₁ password =
        (some { ID := id, Email := ToLower email, UserType := storedType,
                PasswordHash := passwordHash }, none) ∧
      ProcessLoginIn jwt a us bcrypt now₁ now₂ (.ok ⟨email, password, userType₁⟩) c =
        (match GenerateToken jwt a now₁ now₂ id storedType with
          | (_, some _) =>
            (c.Header "Content-Type" "application/json").JSON 500
              [("error", "Token Generate error")]
          | (tkn, none) =>
            ((c.Header "Content-Type" "application/json").Header "Authorization" tkn).JSON 201
              [("message", tkn)])) := by
  have hsame : Authenticate us bcrypt email userType₁ password =
      Authenticate us bcrypt email userType₂ password := by
    rw [Authenticate_eq, Authenticate_eq]
  refine ⟨hsame, ?_, ?_⟩
  · simp only [ProcessLoginIn, hsame]
  · intro id passwordHash storedType hq hb
    have hauth : Authenticate us bcrypt email userType₁ password =
        (some { ID := id, Email := ToLower email, UserType := storedType,
                PasswordHash := passwordHash }, none) := by
      rw [Authenticate_eq, hq]
      simp only [hb]
    refine ⟨hauth, ?_⟩
    simp only [ProcessLoginIn, hauth, StatusInternalServerError, StatusCreated]

/-- C19 on a concrete login: the stored applicant who sends `admin` as user type
gets the user, and the token, of an applicant. -/
theorem Authenticate_ignores_userType_witness :
    Authenticate demoUserService demoCompare "Ann@Example.com" "admin" "secret" =
      (some { ID := 42, Email := "ann@example.com", UserType := "applicant",
              PasswordHash := "h42" }, none) ∧
    ProcessLoginIn demoJwt demoAuth demoUserService demoCompare demoIssueTime demoIssueTime
        (.ok ⟨"Ann@Example.com", "secret", "admin"⟩) noHeaderContext =
      ProcessLoginIn demoJwt demoAuth demoUserService demoCompare demoIssueTime demoIssueTime
        (.ok ⟨"Ann@Example.com", "secret", "applicant"⟩) noHeaderContext ∧
    (ProcessLoginIn demoJwt demoAuth demoUserService demoCompare demoIssueTime demoIssueTime
        (.ok ⟨"Ann@Example.com", "secret", "admin"⟩) noHeaderContext).ResponseHeader.lookup
        "Authorization" = some demoApplicantToken :=
  ⟨((Authenticate_ignores_userType demoJwt demoAuth demoUserService demoCompare demoIssueTime
      demoIssueTime noHeaderContext "Ann@Example.com" "secret" "admin" "applicant").2.2
      42 "h42" "applicant" rfl (by decide)).1,
   (Authenticate_ignores_userType demoJwt demoAuth demoUserService demoCompare demoIssueTime
      demoIssueTime noHeaderContext "Ann@Example.com" "secret" "admin" "applicant").2.1,
   by decide⟩

/-! ## `VerifyToken` against the verdict of the specification -/

theorem demoJwt_validWhenNoError : demoJwt.ValidWhenNoError := by
  intro tokenString key now h
  simp only [demoJwt, demoParseWithClaims] at h ⊢
  cases hdec : demoDecode tokenString with
  | none => simp [hdec] at h
  | some p =>
    obtain ⟨c, k⟩ := p
    simp only [hdec] at h ⊢
    by_cases hk : k = key
    · simp only [hk, ne_eq, not_true_eq_false, if_false] at h ⊢
      cases hE : c.ExpiresAt with
      | none => rfl
      | some e =>
        simp only [hE] at h ⊢
        by_cases hb : now.Before e.Time = true
        · simp [hb]
        · simp [hb] at h
    · simp [hk] at h

theorem VerifyToken_eq_verifyVerdict (jwt : Jwt) (hjwt : jwt.ValidWhenNoError) (a : Auth)
    (now : Time) (tokenString requiredRole : String) :
    VerifyToken jwt a now tokenString requiredRole =
      verifyVerdict (jwt.ParseWithClaims tokenString a.publicKey now) requiredRole := by
  have hvalid := hjwt tokenString a.publicKey now
  rcases hp : jwt.ParseWithClaims tokenString a.publicKey now with ⟨c, tk, err⟩
  rw [hp] at hvalid
  cases err with
  | some e => simp [VerifyToken, verifyVerdict, hp]
  | none =>
    have hv : tk.Valid = true := hvalid rfl
    by_cases hr : c.Roles = Applicant
    · by_cases hq : c.Roles = requiredRole
      · simp [VerifyToken, verifyVerdict, hp, hv, hr, hq]
      · simp [VerifyToken, verifyVerdict, hp, hv, hr, hq]
    · simp [VerifyToken, verifyVerdict, hp, hv, hr]

/-- C3, amended: given that the parser sets `Valid` whenever it returns a nil
error, the wrapped operation is invoked (the probe counts a call) only if the
request carries a token that verifies (it is extracted from the header, parses
without error, is marked valid, and `VerifyToken` returns its claims) and whose
role equals `requiredRole` or is not `applicant`. -/
theorem JWTMiddleware_invokes_only_if (jwt : Jwt) (hjwt : jwt.ValidWhenNoError) (m : Mid)
    (requiredRole : String) (now : Time) (c : Context) (n : Nat)
    (h : (JWTMiddleware jwt m callProbe requiredRole now c n).2 = n + 1) :
    extractTokenFromHeader c.Request ≠ "" ∧
    ∃ cl : Claims,
      jwt.ParseWithClaims (extractTokenFromHeader c.Request) m.a.publicKey now
        = (cl, ⟨true⟩, none) ∧
      VerifyToken jwt m.a now (extractTokenFromHeader c.Request) requiredRole
        = (some cl, none) ∧
      (cl.Roles = requiredRole ∨ cl.Roles ≠ Applicant) := by
  have hnot : ¬ gateRejects jwt m requiredRole now c := by
    intro hrej
    rcases hrej with hrej | hrej
    · rw [JWTMiddleware_of_no_token jwt m callProbe requiredRole now c n hrej] at h
      simp at h
    · rw [JWTMiddleware_of_error jwt m callProbe requiredRole now c n hrej] at h
      simp at h
  simp only [gateRejects, not_or, ne_eq, not_not] at hnot
  obtain ⟨htok, hverify⟩ := hnot
  refine ⟨htok, ?_⟩
  have hvalid := hjwt (extractTokenFromHeader c.Request) m.a.publicKey now
  have hverdict := VerifyToken_eq_verifyVerdict jwt hjwt m.a now
    (extractTokenFromHeader c.Request) requiredRole
  rcases hp : jwt.ParseWithClaims (extractTokenFromHeader c.Request) m.a.publicKey now
    with ⟨cl, tk, err⟩
  rw [hp] at hvalid hverdict
  rw [hverdict] at hverify
  cases err with
  | some e => simp [verifyVerdict] at hverify
  | none =>
    have hv : tk.Valid = true := hvalid rfl
    have htk : tk = ⟨true⟩ := by
      cases tk
      simp only at hv
      simp [hv]
    by_cases hbad : cl.Roles = Applicant ∧ cl.Roles ≠ requiredRole
    · simp only [verifyVerdict] at hverify
      rw [if_pos hbad] at hverify
      simp at hverify
    · refine ⟨cl, by rw [htk], ?_, ?_⟩
      · rw [hverdict]
        simp only [verifyVerdict]
        rw [if_neg hbad]
      · by_cases hr : cl.Roles = requiredRole
        · exact Or.inl hr
        · exact Or.inr (fun ha => hbad ⟨ha, hr⟩)

/-- C3, amended, on a concrete run: the applicant token on a route that requires
`applicant` reaches the probe; the token is extracted and its claims verify. -/
theorem JWTMiddleware_invokes_only_if_witness :
    (JWTMiddleware demoJwt demoMid callProbe Applicant demoLater
      (bearerContext demoApplicantToken) 0).2 = 0 + 1 ∧
    extractTokenFromHeader (bearerContext demoApplicantToken).Request ≠ "" ∧
    ∃ cl : Claims,
      demoJwt.ParseWithClaims (extractTokenFromHeader (bearerContext demoApplicantToken).Request)
        demoMid.a.publicKey demoLater = (cl, ⟨true⟩, none) ∧
      VerifyToken demoJwt demoMid.a demoLater
        (extractTokenFromHeader (bearerContext demoApplicantToken).Request) Applicant
        = (some cl, none) ∧
      (cl.Roles = Applicant ∨ cl.Roles ≠ Applicant) :=
  ⟨by decide,
   JWTMiddleware_invokes_only_if demoJwt demoJwt_validWhenNoError demoMid Applicant demoLater
     (bearerContext demoApplicantToken) 0 (by decide)⟩

/-! ## The dates of the issued claims -/

/-- C12, as stated, fails: when the clock reads 1.5 s, the token `GenerateToken`
issues carries the issue date 1 s and the expiry 3001 s, which are not the
clock reading and not the clock reading plus 50 minutes. -/
theorem GenerateToken_dates_truncated :
    GenerateToken demoJwt demoAuth demoHalfSecond demoHalfSecond 1 Admin =
      ("api project.1.3001.1.admin.3233.17", none) ∧
    (issuedClaims demoHalfSecond demoHalfSecond 1 Admin).IssuedAt = some ⟨1⟩ ∧
    (⟨1⟩ : NumericDate).Time ≠ demoHalfSecond ∧
    (issuedClaims demoHalfSecond demoHalfSecond 1 Admin).ExpiresAt = some ⟨3001⟩ ∧
    (⟨3001⟩ : NumericDate).Time ≠ demoHalfSecond.Add (50 * Minute) := by
  decide

/-- C12, amended: for every id, role and pair of clock readings `now₁` (read for
the expiry) and `now₂` (read for the issue date), `GenerateToken` signs claims
with issuer `api project`, subject the decimal form of `id`, the given role,
issue date `now₂` truncated to the whole second and expiry `now₁` truncated to
the whole second plus 50 minutes; a reading that is a whole number of seconds
is kept exactly. -/
theorem GenerateToken_claims (jwt : Jwt) (a : Auth) (now₁ now₂ : Time) (id : Int)
    (role : String) :
    GenerateToken jwt a now₁ now₂ id role =
      (match jwt.SignedString (issuedClaims now₁ now₂ id role) a.privateKey with
        | (encodedToken, none) => (encodedToken, none)
        | (_, some e) => ("", some e)) ∧
    (issuedClaims now₁ now₂ id role).Issuer = "api project" ∧
    (issuedClaims now₁ now₂ id role).Subject = Itoa id ∧
    (issuedClaims now₁ now₂ id role).Roles = role ∧
    (issuedClaims now₁ now₂ id role).IssuedAt = some (NewNumericDate now₂) ∧
    (issuedClaims now₁ now₂ id role).ExpiresAt
      = some (NewNumericDate (now₁.Add (50 * Minute))) ∧
    (NewNumericDate now₂).Time.unixNano = now₂.unixNano - now₂.unixNano % Second ∧
    (NewNumericDate (now₁.Add (50 * Minute))).Time.unixNano
      = now₁.unixNano - now₁.unixNano % Second + 50 * Minute ∧
    (now₂.unixNano % Second = 0 → (NewNumericDate now₂).Time = now₂) ∧
    (now₁.unixNano % Second = 0 →
      (NewNumericDate (now₁.Add (50 * Minute))).Time = now₁.Add (50 * Minute)) := by
  refine ⟨GenerateToken_eq jwt a now₁ now₂ id role, rfl, rfl, rfl, rfl, rfl, ?_, ?_, ?_, ?_⟩
  · simp only [NewNumericDate, NumericDate.Time, Second]
    omega
  · simp only [NewNumericDate, NumericDate.Time, Time.Add, Minute, Second]
    omega
  · intro h
    cases now₂ with
    | mk u =>
      simp only [NewNumericDate, NumericDate.Time, Second, Time.mk.injEq] at h ⊢
      omega
  · intro h
    cases now₁ with
    | mk u =>
      simp only [NewNumericDate, NumericDate.Time, Time.Add, Minute, Second,
        Time.mk.injEq] at h ⊢
      omega

/-- C12, amended, at the whole second 1000 s: the issue date is the clock
reading and the expiry is the clock reading plus 50 minutes. -/
theorem GenerateToken_claims_witness :
    (issuedClaims demoIssueTime demoIssueTime 42 Applicant).IssuedAt
      = some (NewNumericDate demoIssueTime) ∧
    (NewNumericDate demoIssueTime).Time = demoIssueTime ∧
    (NewNumericDate (demoIssueTime.Add (50 * Minute))).Time
      = demoIssueTime.Add (50 * Minute) :=
  ⟨(GenerateToken_claims demoJwt demoAuth demoIssueTime demoIssueTime 42 Applicant).2.2.2.2.1,
   (GenerateToken_claims demoJwt demoAuth demoIssueTime demoIssueTime 42
      Applicant).2.2.2.2.2.2.2.2.1 (by decide),
   (GenerateToken_claims demoJwt demoAuth demoIssueTime demoIssueTime 42
      Applicant).2.2.2.2.2.2.2.2.2 (by decide)⟩

/-! ## What `VerifyToken` depends on -/

end RMS
